import Mathlib

/-!
# Atomos: the ball simulation of `src/Balls/Physics.cpp`

A shallow embedding of the particle simulation: bodies, boundary enforcement,
pairwise collision response, the collision grid and its sweeps.

Conventions of the embedding.

* `float` values are exact rationals (`ℚ`): the statements are about the
  arithmetic the code writes down, not about rounding.
* `glm::length` needs a square root, which `ℚ` does not have.  It is a library
  function outside the repository and is taken as a parameter `len`; theorems
  assume it exact only at the vectors the code applies it to.
* A float division whose divisor is zero has no rational value.  Functions that
  divide return `Option`, and `none` means "a division by zero was evaluated".
* Code that loops over the grid returns a `Run`: it either ran to its end or stopped
  at a fault (an `assert` that fired, a division by zero), and in both cases the
  state reached is part of the result.  The program is the build with assertions
  enabled, the one in which `assert(grid->insert(obj, gridIndex))` inserts at all.
* `uint16_t` simulation extents are natural numbers; the 8-bit cell index is a
  natural number reduced modulo `2 ^ 8`.
* Pointers to bodies are positions in the controller's `objects` vector.
* `GridContainer.hpp` and `ThreadPool.hpp` are not among the sources.  The grid
  container is modelled from its description.  The worker pool is modelled twice: as
  the order in which it runs the tasks handed to it, each to its end
  (`handleCollisionsThreaded`), and as a schedule that interleaves the calls of
  `checkCollision` of tasks running at the same time (`handleCollisionsConcurrent`);
  the first is the second with every task given its turns in one block
  (`handleCollisionsThreaded_eq_concurrent`).
-/

namespace Atomos

/-! ## Constants (`#define`s of Physics.cpp and Physics.hpp) -/

/-- Restitution coefficient, `#define ELASTICITY .6f`. -/
def ELASTICITY : ℚ := 6 / 10

/-- Inset of the walls, `#define IMGUI_FRAME_MARGIN 4`. -/
def IMGUI_FRAME_MARGIN : ℚ := 4

/-- Radius given to spawned bodies, `#define OBJECT_SIZE 4`. -/
def OBJECT_SIZE : ℕ := 4

/-- Edge of a grid cell, `#define CELL_SIZE (OBJECT_SIZE * 2)`. -/
def CELL_SIZE : ℕ := OBJECT_SIZE * 2

/-- Mass per squared radius, `#define DENSITY 2`. -/
def DENSITY : ℚ := 2

/-- Number of column bands, `#define THREAD_COUNT 4`. -/
def THREAD_COUNT : ℕ := 4

/-- Capacity of a cell, `#define MAX_COLLISION_NODE_OBJECTS 16`. -/
def MAX_COLLISION_NODE_OBJECTS : ℕ := 16

/-! ## Vectors (`glm::vec2` in exact arithmetic) -/

/-- A two-component vector, `glm::vec2`. -/
structure Vec2 where
  x : ℚ
  y : ℚ
deriving DecidableEq

namespace Vec2

/-- Componentwise sum, `a + b`. -/
def add (a b : Vec2) : Vec2 := ⟨a.x + b.x, a.y + b.y⟩

/-- Componentwise difference, `a - b`. -/
def sub (a b : Vec2) : Vec2 := ⟨a.x - b.x, a.y - b.y⟩

/-- Componentwise negation, `-a`. -/
def neg (a : Vec2) : Vec2 := ⟨-a.x, -a.y⟩

/-- Scalar multiple, `s * a` and `a * s`. -/
def smul (s : ℚ) (a : Vec2) : Vec2 := ⟨s * a.x, s * a.y⟩

/-- Inner product, `glm::dot`. -/
def dot (a b : Vec2) : ℚ := a.x * b.x + a.y * b.y

/-- Scalar quotient of floats: undefined on a zero divisor. -/
def fdiv (a b : ℚ) : Option ℚ := if b = 0 then none else some (a / b)

/-- Vector divided by a scalar, `a / s`: each component is divided by `s`. -/
def divScalar (a : Vec2) (s : ℚ) : Option Vec2 :=
  (fdiv a.x s).bind fun qx => (fdiv a.y s).bind fun qy => some ⟨qx, qy⟩

/-- Unit vector of `a`, `glm::normalize`: `a * inversesqrt(dot(a, a))`, the inverse
square root being one over the length. -/
def normalize (len : Vec2 → ℚ) (a : Vec2) : Option Vec2 :=
  (fdiv 1 (len a)).bind fun s => some (smul s a)

end Vec2

/-- The length function is exact at `v`: it returns the non-negative square root
of `dot v v`. -/
def ExactAt (len : Vec2 → ℚ) (v : Vec2) : Prop :=
  0 ≤ len v ∧ len v * len v = Vec2.dot v v

/-- A length function that is exact on axis-parallel vectors, used to evaluate the
definitions on concrete inputs. -/
def axisLength (v : Vec2) : ℚ := max v.x (-v.x) + max v.y (-v.y)

/-- Newton's iteration for the integer square root of `n`, started above the root. -/
def natSqrtLoop (n : ℕ) : ℕ → ℕ → ℕ
  | 0, x => x
  | fuel + 1, x =>
    let y := (x + n / x) / 2
    if y < x then natSqrtLoop n fuel y else x

/-- The integer square root of `n`, rounded down. -/
def natSqrt (n : ℕ) : ℕ := if n = 0 then 0 else natSqrtLoop n n n

/-- A length function that is exact on every vector whose Euclidean length is rational
(it rounds the length of the others down to a multiple of one over the denominator of
the squared length), used to evaluate the definitions on concrete inputs. -/
def sqrtLength (v : Vec2) : ℚ :=
  (natSqrt ((Vec2.dot v v).num.toNat * (Vec2.dot v v).den) : ℚ) / ((Vec2.dot v v).den : ℚ)

/-! ## Bodies -/

/-- The physical fields of `struct PhysicsObject` (the colour is display only). -/
structure PhysicsObject where
  position : Vec2
  velocity : Vec2
  acceleration : Vec2
  radius : ℚ
  mass : ℚ
deriving DecidableEq

namespace PhysicsObject

/-- The constructor `PhysicsObject(pos, r, v)`: zero acceleration and
`mass = r * r * DENSITY`. -/
def new (pos : Vec2) (r : ℚ) (v : Vec2) : PhysicsObject :=
  { position := pos, velocity := v, acceleration := ⟨0, 0⟩, radius := r,
    mass := r * r * DENSITY }

/-- `PhysicsObject::enforceBoundaries(width, height)`: four tests in the order of
the source, bottom, top, right, left; each clamps one coordinate and reflects the
matching velocity component scaled by the restitution. -/
def enforceBoundaries (o : PhysicsObject) (width height : ℕ) : PhysicsObject :=
  let o1 : PhysicsObject :=
    if o.position.y > (height : ℚ) - o.radius - IMGUI_FRAME_MARGIN then
      { o with position := ⟨o.position.x, (height : ℚ) - o.radius - IMGUI_FRAME_MARGIN⟩,
               velocity := ⟨o.velocity.x, o.velocity.y * -ELASTICITY⟩ }
    else o
  let o2 : PhysicsObject :=
    if o1.position.y < o1.radius + IMGUI_FRAME_MARGIN then
      { o1 with position := ⟨o1.position.x, o1.radius + IMGUI_FRAME_MARGIN⟩,
                velocity := ⟨o1.velocity.x, o1.velocity.y * -ELASTICITY⟩ }
    else o1
  let o3 : PhysicsObject :=
    if o2.position.x > (width : ℚ) - o2.radius - IMGUI_FRAME_MARGIN then
      { o2 with position := ⟨(width : ℚ) - o2.radius - IMGUI_FRAME_MARGIN, o2.position.y⟩,
                velocity := ⟨o2.velocity.x * -ELASTICITY, o2.velocity.y⟩ }
    else o2
  if o3.position.x < o3.radius + IMGUI_FRAME_MARGIN then
    { o3 with position := ⟨o3.radius + IMGUI_FRAME_MARGIN, o3.position.y⟩,
              velocity := ⟨o3.velocity.x * -ELASTICITY, o3.velocity.y⟩ }
  else o3

/-- The position lies in the closed range the walls allow on both axes. -/
def InBounds (o : PhysicsObject) (width height : ℕ) : Prop :=
  o.radius + IMGUI_FRAME_MARGIN ≤ o.position.x ∧
  o.position.x ≤ (width : ℚ) - o.radius - IMGUI_FRAME_MARGIN ∧
  o.radius + IMGUI_FRAME_MARGIN ≤ o.position.y ∧
  o.position.y ≤ (height : ℚ) - o.radius - IMGUI_FRAME_MARGIN

instance (o : PhysicsObject) (width height : ℕ) : Decidable (o.InBounds width height) := by
  unfold InBounds; infer_instance

end PhysicsObject

open Vec2 PhysicsObject

/-! ## Narrow phase -/

/-- The body of the `if (dist < minDist)` branch of `CollisionGrid::checkCollision`
up to and including the two velocity updates, before the walls are enforced. -/
def collisionResponse (len : Vec2 → ℚ) (obj1 obj2 : PhysicsObject) (dist minDist : ℚ) :
    Option (PhysicsObject × PhysicsObject) :=
  let distanceVector := sub obj1.position obj2.position
  (divScalar distanceVector dist).bind fun collisionAxis =>
  let delta := minDist - dist
  (normalize len collisionAxis).bind fun axis1 =>
  (normalize len collisionAxis).bind fun axis2 =>
  let repositionDistance1 := smul ((1 / 2) * delta) axis1
  let repositionDistance2 := smul (-(1 / 2) * delta) axis2
  (fdiv (2 * obj2.mass) (obj1.mass + obj2.mass)).bind fun factorMass1 =>
  (fdiv (2 * obj1.mass) (obj1.mass + obj2.mass)).bind fun factorMass2 =>
  let positionDiffVector := sub obj1.position obj2.position
  let velocityDiffVector := sub obj1.velocity obj2.velocity
  (fdiv (factorMass1 * dot velocityDiffVector positionDiffVector)
      (dot positionDiffVector positionDiffVector)).bind fun k1 =>
  (fdiv (factorMass2 * dot (neg velocityDiffVector) (neg positionDiffVector))
      (dot positionDiffVector positionDiffVector)).bind fun k2 =>
  let velocityAdjustment1 := smul k1 positionDiffVector
  let velocityAdjustment2 := smul k2 (neg positionDiffVector)
  some
    ({ obj1 with position := add obj1.position repositionDistance1,
                 velocity := sub obj1.velocity (smul ELASTICITY velocityAdjustment1) },
     { obj2 with position := add obj2.position repositionDistance2,
                 velocity := sub obj2.velocity (smul ELASTICITY velocityAdjustment2) })

/-- `CollisionGrid::checkCollision(obj1, obj2)` for a controller of the given
simulation extent: when the centres are closer than the sum of the radii, the
collision response followed by `enforceBoundaries` on both bodies; otherwise the
bodies are returned as they are.  `none`: a division by zero was evaluated. -/
def checkCollision (len : Vec2 → ℚ) (width height : ℕ) (obj1 obj2 : PhysicsObject) :
    Option (PhysicsObject × PhysicsObject) :=
  let distanceVector := sub obj1.position obj2.position
  let dist := len distanceVector
  let minDist := obj1.radius + obj2.radius
  if dist < minDist then
    (collisionResponse len obj1 obj2 dist minDist).bind fun r =>
      some (r.1.enforceBoundaries width height, r.2.enforceBoundaries width height)
  else some (obj1, obj2)

/-! ## Runs that can stop -/

/-- Why a run stopped before its end. -/
inductive Fault where
  | divisionByZero
  | assertion
deriving DecidableEq

/-- Result of running a piece of code on a state: it ran to its end (`done`), or it
stopped at a fault (`stopped`) and the state is the one reached at that point.  An
`assert` that fires aborts the program; a float division by zero has no rational
value, so the embedding follows the run no further. -/
inductive Run (σ : Type) where
  | done (s : σ)
  | stopped (f : Fault) (s : σ)
deriving DecidableEq

namespace Run

/-- The state a run ended in. -/
def state {σ : Type} : Run σ → σ
  | done s => s
  | stopped _ s => s

/-- Whether a run reached its end. -/
def isDone {σ : Type} : Run σ → Bool
  | done _ => true
  | stopped _ _ => false

/-- The state a run that reached its end ended in; a run that stopped has none. -/
def result {σ : Type} : Run σ → Option σ
  | done s => some s
  | stopped _ _ => none

/-- The run with `f` applied to the state it ended or stopped in. -/
def map {σ : Type} (f : σ → σ) : Run σ → Run σ
  | done s => done (f s)
  | stopped e s => stopped e (f s)

/-- Sequencing: the next piece runs only when the previous one ran to its end. -/
def andThen {σ : Type} (r : Run σ) (f : σ → Run σ) : Run σ :=
  match r with
  | done s => f s
  | stopped e s => stopped e s

/-- A `for` loop over the values of `l`, in order. -/
def forEach {α σ : Type} (l : List α) (body : α → σ → Run σ) (s : σ) : Run σ :=
  match l with
  | [] => done s
  | a :: rest => (body a s).andThen (forEach rest body)

end Run

open Run

/-- The integers `lo, lo + 1, ..., hi - 1`, the values of `for (int k = lo; k < hi; k++)`. -/
def intRange (lo hi : ℤ) : List ℤ :=
  (List.range (hi - lo).toNat).map fun (k : ℕ) => lo + (k : ℤ)

/-! ## Cells -/

/-- `struct CollisionNode`: a fixed array of `maxObjects` body pointers and the number
of slots in use.  A body pointer is the position of the body in the controller's
`objects` vector. -/
structure CollisionNode where
  objects : Fin MAX_COLLISION_NODE_OBJECTS → ℕ
  numObjects : ℕ

namespace CollisionNode

/-- `static constexpr uint8_t maxObjects = MAX_COLLISION_NODE_OBJECTS`. -/
def maxObjects : ℕ := MAX_COLLISION_NODE_OBJECTS

/-- `CollisionNode::count`. -/
def count (c : CollisionNode) : ℕ := c.numObjects

/-- `CollisionNode::insert`: `assert(numObjects < maxObjects)`, then
`objects[numObjects++] = obj`. -/
def insert (c : CollisionNode) (obj : ℕ) : Run CollisionNode :=
  if h : c.numObjects < MAX_COLLISION_NODE_OBJECTS then
    done { objects := Function.update c.objects ⟨c.numObjects, h⟩ obj,
           numObjects := c.numObjects + 1 }
  else stopped Fault.assertion c

/-- `CollisionNode::clear`: only the count is reset. -/
def clear (c : CollisionNode) : CollisionNode := { c with numObjects := 0 }

/-- The pointers `objects[0], ..., objects[count() - 1]` in slot order: what the loops
of `checkCellCollisions` read.  Slots past the array are not part of the embedding. -/
def members (c : CollisionNode) : List ℕ :=
  (List.range c.count).filterMap fun i =>
    if h : i < MAX_COLLISION_NODE_OBJECTS then some (c.objects ⟨i, h⟩) else none

/-- A cell with no bodies. -/
def empty : CollisionNode := { objects := fun _ => 0, numObjects := 0 }

end CollisionNode

/-! ## The grid -/

/-- Modelled from the spec: `GridContainer<CollisionNode>`, the base class of
`CollisionGrid`, whose header `GridContainer.hpp` is not among the sources: "an
ordered 2D array of Cells" of `width` columns and `height` rows.  Only the entries
with `x < width` and `y < height` are cells of the grid. -/
structure CollisionGrid where
  width : ℕ
  height : ℕ
  cells : ℕ → ℕ → CollisionNode

namespace CollisionGrid

/-- Modelled from the spec: `GridContainer::getCell(x, y)`, "returns the cell at grid
coordinates, or an empty sentinel cell when out of range". -/
def getCell (g : CollisionGrid) (x y : ℤ) : CollisionNode :=
  if 0 ≤ x ∧ x < g.width ∧ 0 ≤ y ∧ y < g.height then g.cells x.toNat y.toNat
  else CollisionNode.empty

/-- Modelled from the spec: `GridContainer::clear()`, "empties every cell". -/
def clear (g : CollisionGrid) : CollisionGrid :=
  { g with cells := fun x y => (g.cells x y).clear }

/-- Modelled from the spec: `GridContainer::insert(obj, index)`, which "asserts the
coordinate lies within grid bounds" and "appends the body to that cell" with
`CollisionNode::insert`. -/
def insert (g : CollisionGrid) (obj : ℕ) (index : ℕ × ℕ) : Run CollisionGrid :=
  if index.1 < g.width ∧ index.2 < g.height then
    match (g.cells index.1 index.2).insert obj with
    | done c =>
      done { g with cells := fun x y => if x = index.1 ∧ y = index.2 then c else g.cells x y }
    | stopped f _ => stopped f g
  else stopped Fault.assertion g

/-- Sum of `count()` over all cells of the grid. -/
def totalCount (g : CollisionGrid) : ℕ :=
  ((List.range g.width).map fun x =>
    ((List.range g.height).map fun y => (g.cells x y).count).sum).sum

end CollisionGrid

/-- Conversion of a float to `uint8_t`: the fractional part is dropped (towards zero)
and the integer is reduced modulo `2 ^ 8`. -/
def toUint8 (q : ℚ) : ℕ :=
  ((if 0 ≤ q then ⌊q⌋ else ⌈q⌉) % 256).toNat

/-- The cell index of a body,
`glm::u8vec2 gridIndex = obj->position / static_cast<float>(CELL_SIZE) + glm::vec2(1,1)`. -/
def gridIndex (o : PhysicsObject) : ℕ × ℕ :=
  (toUint8 (o.position.x / (CELL_SIZE : ℚ) + 1), toUint8 (o.position.y / (CELL_SIZE : ℚ) + 1))

/-- The grid dimension the constructor of `PhysicsController` derives from a
simulation extent, `floor(static_cast<float>(extent) / CELL_SIZE) + 3`. -/
def gridDim (extent : ℕ) : ℕ := (⌊(extent : ℚ) / (CELL_SIZE : ℚ)⌋ + 3).toNat

/-- The grid rebuild at the start of `PhysicsController::handleCollisions`:
`grid->clear()`, then every body of `objects` is inserted at its cell index. -/
def rebuildGrid (g : CollisionGrid) (objects : List PhysicsObject) : Run CollisionGrid :=
  forEach objects.enum (fun po grid => grid.insert po.1 (gridIndex po.2)) g.clear

/-! ## Broad phase -/

/-- `checkCollision` on two pointers: both bodies are read from `objects`, and the
bodies it returns are written back. -/
def checkCollisionAt (len : Vec2 → ℚ) (width height : ℕ) (obj1 obj2 : ℕ)
    (objects : List PhysicsObject) : Run (List PhysicsObject) :=
  match objects[obj1]?, objects[obj2]? with
  | some o1, some o2 =>
    match checkCollision len width height o1 o2 with
    | some r => done ((objects.set obj1 r.1).set obj2 r.2)
    | none => stopped Fault.divisionByZero objects
  | _, _ => done objects

/-- `CollisionGrid::checkCellCollisions(cell1, cell2)`: every body of `cell1` against
every body of `cell2`, a body never against itself. -/
def checkCellCollisions (len : Vec2 → ℚ) (width height : ℕ) (cell1 cell2 : CollisionNode)
    (objects : List PhysicsObject) : Run (List PhysicsObject) :=
  forEach cell1.members (fun obj1 =>
    forEach cell2.members (fun obj2 objs =>
      if obj1 ≠ obj2 then checkCollisionAt len width height obj1 obj2 objs else done objs))
    objects

/-- The body of the two outer loops of `CollisionGrid::handleCollisions` for the cell
in column `i` and row `j`: an empty cell is skipped, every other cell is checked
against the nine cells around it, row by row. -/
def visitCell (len : Vec2 → ℚ) (width height : ℕ) (g : CollisionGrid) (i j : ℤ)
    (objects : List PhysicsObject) : Run (List PhysicsObject) :=
  let currentNode := g.getCell i j
  if currentNode.count = 0 then done objects
  else
    forEach (intRange (-1) 2) (fun dj =>
      forEach (intRange (-1) 2) (fun di objs =>
        let adjacentNode := g.getCell (i + di) (j + dj)
        if adjacentNode.count = 0 then done objs
        else checkCellCollisions len width height currentNode adjacentNode objs))
      objects

/-- `CollisionGrid::handleCollisions(widthLow, widthHigh)` for a controller of the given
simulation extent. -/
def handleCollisions (len : Vec2 → ℚ) (width height : ℕ) (g : CollisionGrid)
    (widthLow widthHigh : ℤ) (objects : List PhysicsObject) : Run (List PhysicsObject) :=
  let widthHigh1 : ℤ :=
    if widthHigh = -1 ∨ widthHigh ≥ g.width then (g.width : ℤ) - 1 else widthHigh
  forEach (intRange 1 ((g.height : ℤ) - 1)) (fun j =>
    forEach (intRange widthLow widthHigh1) (fun i => visitCell len width height g i j))
    objects

/-- The column range of band `i` in `CollisionGrid::handleCollisionsThreaded`:
`static_cast<int>(step * i) + 1` and `static_cast<int>(step * (i + 1)) + 1` with
`step = width / THREAD_COUNT`. -/
def bandRange (gridWidth : ℕ) (i : ℕ) : ℤ × ℤ :=
  let step : ℚ := (gridWidth : ℚ) / (THREAD_COUNT : ℚ)
  (⌊step * (i : ℚ)⌋ + 1, ⌊step * ((i : ℚ) + 1)⌋ + 1)

/-- `CollisionGrid::handleCollisionsThreaded(pool)`: one task per band is handed to the
pool, task `i` being `handleCollisions(widthRangeLow, widthRangeHigh)` for the column
range of band `i`.  The worker pool (`ThreadPool.hpp`) is not among the sources; it is
represented by `order`, the order in which it runs the tasks it was given, each task
running to its end before the next one starts.  Tasks that run at the same time are
the subject of `handleCollisionsConcurrent`. -/
def handleCollisionsThreaded (len : Vec2 → ℚ) (width height : ℕ) (g : CollisionGrid)
    (order : List ℕ) (objects : List PhysicsObject) : Run (List PhysicsObject) :=
  forEach order (fun i =>
    handleCollisions len width height g (bandRange g.width i).1 (bandRange g.width i).2)
    objects

/-! ## Integration, spawners and the controller -/

/-- Downward acceleration, `#define GRAVITATIONAL_FORCE 45.f`. -/
def GRAVITATIONAL_FORCE : ℚ := 45

/-- Speed of a spawned body, `#define SPAWNER_EXIT_SPEED 160.f`. -/
def SPAWNER_EXIT_SPEED : ℚ := 160

/-- Body count at which spawning is switched off, `#define MAX_OBJECTS 2000`. -/
def MAX_OBJECTS : ℕ := 2000

/-- Offset between successive spawners,
`#define SPAWNER_OFFSET glm::vec2(-OBJECT_SIZE * 2, OBJECT_SIZE * 2 + 2)`. -/
def SPAWNER_OFFSET : Vec2 := ⟨-((OBJECT_SIZE : ℚ) * 2), (OBJECT_SIZE : ℚ) * 2 + 2⟩

/-- Sweeps per frame, `#define COLLISION_ITERATIONS 5`. -/
def COLLISION_ITERATIONS : ℕ := 5

/-- Speed below which a body is put to rest, `#define EPSILON 0.01`. -/
def EPSILON : ℚ := 1 / 100

/-- Longest time step, `#define MAX_TIME_STEP (1.f / 60.f)`. -/
def MAX_TIME_STEP : ℚ := 1 / 60

/-- Time between two shots of a spawner, `#define REFRACTORY_TIME .115f`. -/
def REFRACTORY_TIME : ℚ := 115 / 1000

namespace PhysicsObject

/-- `PhysicsObject::accelerate(acc)`: `acceleration += acc`. -/
def accelerate (o : PhysicsObject) (acc : Vec2) : PhysicsObject :=
  { o with acceleration := Vec2.add o.acceleration acc }

/-- `PhysicsObject::update(timeDelta, simWidth, simHeight)`, statement by statement:
`velocity += acceleration * timeDelta`, `position += velocity * timeDelta`,
`acceleration = glm::vec2(0)`, the velocity is zeroed when its length is below
`EPSILON`, and `enforceBoundaries(simWidth, simHeight)`. -/
def update (len : Vec2 → ℚ) (o : PhysicsObject) (timeDelta : ℚ) (simWidth simHeight : ℕ) :
    PhysicsObject :=
  let o1 : PhysicsObject :=
    { o with velocity := Vec2.add o.velocity (Vec2.smul timeDelta o.acceleration) }
  let o2 : PhysicsObject :=
    { o1 with position := Vec2.add o1.position (Vec2.smul timeDelta o1.velocity) }
  let o3 : PhysicsObject := { o2 with acceleration := ⟨0, 0⟩ }
  let o4 : PhysicsObject :=
    if len o3.velocity < EPSILON then { o3 with velocity := ⟨0, 0⟩ } else o3
  o4.enforceBoundaries simWidth simHeight

end PhysicsObject

/-- The fields of `class ObjectSpawner<PhysicsObject>`; the back pointer to the
controller is the controller the spawner is stored in. -/
structure ObjectSpawner where
  position : Vec2
  exitVelocity : Vec2
  timeSinceLastShot : ℚ
  keepShooting : Bool
deriving DecidableEq

namespace ObjectSpawner

/-- The constructor `ObjectSpawner(ctrlr, p, dir, mag)` with the member initialisers
`timeSinceLastShot = REFRACTORY_TIME` and `keepShooting = true`. -/
def new (p dir : Vec2) (mag : ℚ) : ObjectSpawner :=
  { position := p, exitVelocity := Vec2.smul mag dir, timeSinceLastShot := REFRACTORY_TIME,
    keepShooting := true }

/-- `ObjectSpawner::shoot`: `controller->addObject(new T(position, OBJECT_SIZE,
exitVelocity))`, the new body going to the end of the controller's `objects`. -/
def shoot (s : ObjectSpawner) (objects : List PhysicsObject) : List PhysicsObject :=
  objects ++ [PhysicsObject.new s.position (OBJECT_SIZE : ℚ) s.exitVelocity]

/-- `ObjectSpawner::update(timeDelta)`: nothing when `keepShooting` is off; otherwise the
timer advances and, once it exceeds `REFRACTORY_TIME`, one body is shot and the timer
is reduced by `REFRACTORY_TIME`. -/
def update (s : ObjectSpawner) (timeDelta : ℚ) (objects : List PhysicsObject) :
    ObjectSpawner × List PhysicsObject :=
  if s.keepShooting = false then (s, objects)
  else
    let s1 : ObjectSpawner := { s with timeSinceLastShot := s.timeSinceLastShot + timeDelta }
    if s1.timeSinceLastShot > REFRACTORY_TIME then
      ({ s1 with timeSinceLastShot := s1.timeSinceLastShot - REFRACTORY_TIME },
        s1.shoot objects)
    else (s1, objects)

/-- `ObjectSpawner::start`. -/
def start (s : ObjectSpawner) : ObjectSpawner := { s with keepShooting := true }

/-- `ObjectSpawner::stop`. -/
def stop (s : ObjectSpawner) : ObjectSpawner := { s with keepShooting := false }

end ObjectSpawner

/-- The members of `class PhysicsController`; the worker pool is a parameter of the
functions that use it. -/
structure PhysicsController where
  objects : List PhysicsObject
  spawners : List ObjectSpawner
  grid : CollisionGrid
  simulationWidth : ℕ
  simulationHeight : ℕ

namespace PhysicsController

/-- `PhysicsController::addSpawner(position, direction, magnitude)`: the new spawner is
placed `spawners.size()` offsets away from `position`. -/
def addSpawner (c : PhysicsController) (position direction : Vec2) (magnitude : ℚ) :
    PhysicsController :=
  { c with spawners := c.spawners ++
      [ObjectSpawner.new
        (Vec2.add position (Vec2.smul (c.spawners.length : ℚ) SPAWNER_OFFSET))
        direction magnitude] }

/-- `PhysicsController::addSpawnerN(p, dir, mag, n)`: `addSpawner` is called `n` times. -/
def addSpawnerN (c : PhysicsController) (p dir : Vec2) (mag : ℚ) : ℕ → PhysicsController
  | 0 => c
  | n + 1 => addSpawnerN (c.addSpawner p dir mag) p dir mag n

/-- The constructor `PhysicsController(simulationWidth_, simulationHeight_)`: a grid of
`gridDim` columns and rows, no bodies, and five spawners from (75,75) shooting to the
right. -/
def new (simulationWidth simulationHeight : ℕ) : PhysicsController :=
  addSpawnerN
    { objects := [], spawners := [],
      grid := { width := gridDim simulationWidth, height := gridDim simulationHeight,
                cells := fun _ _ => CollisionNode.empty },
      simulationWidth := simulationWidth, simulationHeight := simulationHeight }
    ⟨75, 75⟩ ⟨1, 0⟩ SPAWNER_EXIT_SPEED 5

/-- `PhysicsController::getNumObjects`. -/
def getNumObjects (c : PhysicsController) : ℕ := c.objects.length

/-- `PhysicsController::addObject`. -/
def addObject (c : PhysicsController) (obj : PhysicsObject) : PhysicsController :=
  { c with objects := c.objects ++ [obj] }

/-- `PhysicsController::stopSpawners`. -/
def stopSpawners (c : PhysicsController) : PhysicsController :=
  { c with spawners := c.spawners.map ObjectSpawner.stop }

/-- `PhysicsController::startSpawners`. -/
def startSpawners (c : PhysicsController) : PhysicsController :=
  { c with spawners := c.spawners.map ObjectSpawner.start }

/-- The loop `for (auto spawner : spawners) spawner->update(dt)`: each spawner in turn,
the bodies it shoots being appended to `objects`. -/
def tickSpawners (dt : ℚ) :
    List ObjectSpawner → List PhysicsObject → List ObjectSpawner × List PhysicsObject
  | [], objects => ([], objects)
  | s :: rest, objects =>
    let r := s.update dt objects
    let r1 := tickSpawners dt rest r.2
    (r.1 :: r1.1, r1.2)

/-- The body of the loop over `objects` in `PhysicsController::update`: gravity is
added to the acceleration, the body is updated, and the walls are enforced again. -/
def stepObject (len : Vec2 → ℚ) (dt : ℚ) (simulationWidth simulationHeight : ℕ)
    (obj : PhysicsObject) : PhysicsObject :=
  (PhysicsObject.update len (obj.accelerate ⟨0, GRAVITATIONAL_FORCE⟩) dt simulationWidth
    simulationHeight).enforceBoundaries simulationWidth simulationHeight

/-- `PhysicsController::handleCollisions` with `USE_COLLISION_GRID` and `USE_THREADS`
defined: the grid is rebuilt and the band tasks are handed to the pool, which runs
them in the order `order`. -/
def handleCollisions (len : Vec2 → ℚ) (order : List ℕ) (c : PhysicsController) :
    Run PhysicsController :=
  match rebuildGrid c.grid c.objects with
  | Run.done g =>
    match Atomos.handleCollisionsThreaded len c.simulationWidth c.simulationHeight g order
        c.objects with
    | Run.done objs => Run.done { c with grid := g, objects := objs }
    | Run.stopped f objs => Run.stopped f { c with grid := g, objects := objs }
  | Run.stopped f g => Run.stopped f { c with grid := g }

/-- `PhysicsController::handleCollisionsIterations(iterations)`:
`for (int i{ iterations }; i--;) handleCollisions()`, the body running for
`i = iterations - 1, ..., 0`; `pool i` is the order in which the pool runs the tasks of
that pass. -/
def handleCollisionsIterations (len : Vec2 → ℚ) (pool : ℕ → List ℕ) (iterations : ℕ)
    (c : PhysicsController) : Run PhysicsController :=
  Run.forEach (List.range iterations).reverse (fun i => handleCollisions len (pool i)) c

/-- `PhysicsController::update(dt)`: the step is capped at `MAX_TIME_STEP`, spawning is
switched off once `MAX_OBJECTS` bodies exist, the spawners are ticked, every body is
stepped, and `COLLISION_ITERATIONS` collision passes follow. -/
def update (len : Vec2 → ℚ) (pool : ℕ → List ℕ) (dt : ℚ) (c : PhysicsController) :
    Run PhysicsController :=
  let dt1 : ℚ := min dt MAX_TIME_STEP
  let c1 : PhysicsController := if c.objects.length ≥ MAX_OBJECTS then c.stopSpawners else c
  let r := tickSpawners dt1 c1.spawners c1.objects
  let c2 : PhysicsController := { c1 with spawners := r.1, objects := r.2 }
  let c3 : PhysicsController :=
    { c2 with objects :=
        c2.objects.map (stepObject len dt1 c2.simulationWidth c2.simulationHeight) }
  handleCollisionsIterations len pool COLLISION_ITERATIONS c3

end PhysicsController

/-- One of the operations on a body that `accelerate`, `update`, `enforceBoundaries` and
`checkCollision` make available, applied to the bodies at the given positions of
`objects`. -/
inductive BodyOp where
  | accelerate (obj : ℕ) (acc : Vec2)
  | update (obj : ℕ) (timeDelta : ℚ) (simWidth simHeight : ℕ)
  | enforceBoundaries (obj : ℕ) (width height : ℕ)
  | checkCollision (obj1 obj2 : ℕ) (width height : ℕ)

/-- The effect of a `BodyOp` on the bodies. -/
def BodyOp.run (len : Vec2 → ℚ) (op : BodyOp) (objects : List PhysicsObject) :
    Run (List PhysicsObject) :=
  match op with
  | BodyOp.accelerate obj acc => Run.done (objects.modify (fun o => o.accelerate acc) obj)
  | BodyOp.update obj timeDelta simWidth simHeight =>
    Run.done (objects.modify (fun o => PhysicsObject.update len o timeDelta simWidth simHeight) obj)
  | BodyOp.enforceBoundaries obj width height =>
    Run.done (objects.modify (fun o => o.enforceBoundaries width height) obj)
  | BodyOp.checkCollision obj1 obj2 width height =>
    checkCollisionAt len width height obj1 obj2 objects

/-- The columns `handleCollisions(widthLow, widthHigh)` sweeps in every row: the values
of `i` in `for (int i = widthLow; i < widthHigh; i++)` after the line
`if (widthHigh == -1 || widthHigh >= width) widthHigh = width - 1`. -/
def sweepColumns (gridWidth : ℕ) (widthLow widthHigh : ℤ) : List ℤ :=
  intRange widthLow
    (if widthHigh = -1 ∨ widthHigh ≥ gridWidth then (gridWidth : ℤ) - 1 else widthHigh)

/-- The columns task `i` of `handleCollisionsThreaded` sweeps. -/
def bandColumns (gridWidth : ℕ) (i : ℕ) : List ℤ :=
  sweepColumns gridWidth (bandRange gridWidth i).1 (bandRange gridWidth i).2

/-- The arguments of every `getCell(x, y)` call that `handleCollisions(widthLow,
widthHigh)` makes on the grid `g`, in the order of the calls when the sweep runs to its
end: for each row `j` and column `i` of the two outer loops the current cell `(i, j)`
and, unless that cell is empty, the nine cells `(i + di, j + dj)`. -/
def getCellCalls (g : CollisionGrid) (widthLow widthHigh : ℤ) : List (ℤ × ℤ) :=
  (intRange 1 ((g.height : ℤ) - 1)).flatMap fun j =>
    (sweepColumns g.width widthLow widthHigh).flatMap fun i =>
      (i, j) ::
        (if (g.getCell i j).count = 0 then []
         else
          (intRange (-1) 2).flatMap fun dj =>
            (intRange (-1) 2).map fun di => (i + di, j + dj))

/-! ## The calls of a sweep and the worker pool -/

/-- The calls `checkCollision(obj1, obj2)` that `checkCellCollisions(cell1, cell2)`
makes, in order: every body of `cell1` with every other body of `cell2`. -/
def checkCellCollisionsCalls (cell1 cell2 : CollisionNode) : List (ℕ × ℕ) :=
  cell1.members.flatMap fun obj1 =>
    (cell2.members.filter fun obj2 => obj1 ≠ obj2).map fun obj2 => (obj1, obj2)

/-- The calls of `checkCollision` made while `handleCollisions` is at the cell in column
`i` and row `j`, in order. -/
def visitCellCalls (g : CollisionGrid) (i j : ℤ) : List (ℕ × ℕ) :=
  if (g.getCell i j).count = 0 then []
  else
    (intRange (-1) 2).flatMap fun dj =>
      (intRange (-1) 2).flatMap fun di =>
        if (g.getCell (i + di) (j + dj)).count = 0 then []
        else checkCellCollisionsCalls (g.getCell i j) (g.getCell (i + di) (j + dj))

/-- The calls of `checkCollision` that `handleCollisions(widthLow, widthHigh)` makes on
the grid `g`, in order.  The grid is not written during a sweep, so the calls and their
order are fixed once the grid is rebuilt. -/
def checkCollisionCalls (g : CollisionGrid) (widthLow widthHigh : ℤ) : List (ℕ × ℕ) :=
  (intRange 1 ((g.height : ℤ) - 1)).flatMap fun j =>
    (sweepColumns g.width widthLow widthHigh).flatMap fun i => visitCellCalls g i j

/-- The calls of `checkCollision` of task `i` of `handleCollisionsThreaded`. -/
def bandCalls (g : CollisionGrid) (i : ℕ) : List (ℕ × ℕ) :=
  checkCollisionCalls g (bandRange g.width i).1 (bandRange g.width i).2

/-- Modelled from the spec: the worker pool (`ThreadPool.hpp` is not among the sources)
at work on tasks that run at the same time, "a fixed-size worker pool of parallel
threads" for which "no ordering is guaranteed or required between bands".  `tasks[t]`
holds the calls of `checkCollision` that task `t` has still to make, and `schedule`
names, step by step, the task that makes its next call; a turn given to a task that has
finished, or that does not exist, does nothing.  One call of `checkCollision` is one
step: a call reads and writes its two bodies only, so calls of two tasks that have no
body in common do not see each other at any finer grain either.  As everywhere in the
embedding, a call that divides by zero stops the run. -/
def runTasks (len : Vec2 → ℚ) (width height : ℕ) :
    List (List (ℕ × ℕ)) → List ℕ → List PhysicsObject → Run (List PhysicsObject)
  | _, [], objects => done objects
  | tasks, t :: rest, objects =>
    match tasks[t]? with
    | some (p :: ps) =>
      (checkCollisionAt len width height p.1 p.2 objects).andThen
        (runTasks len width height (tasks.set t ps) rest)
    | _ => runTasks len width height tasks rest objects

/-- `CollisionGrid::handleCollisionsThreaded(pool)` with the four band tasks running at
the same time, their calls of `checkCollision` interleaved as `schedule` says. -/
def handleCollisionsConcurrent (len : Vec2 → ℚ) (width height : ℕ) (g : CollisionGrid)
    (schedule : List ℕ) (objects : List PhysicsObject) : Run (List PhysicsObject) :=
  runTasks len width height ((List.range THREAD_COUNT).map (bandCalls g)) schedule objects

/-- The schedule gives every band task the turns it needs to finish, as the wait for the
completion of all tasks requires. -/
def RunsAllTasks (g : CollisionGrid) (schedule : List ℕ) : Prop :=
  ∀ i < THREAD_COUNT, (bandCalls g i).length ≤ schedule.count i

instance (g : CollisionGrid) (schedule : List ℕ) : Decidable (RunsAllTasks g schedule) := by
  unfold RunsAllTasks
  infer_instance

/-- Two calls of `checkCollision` have no body in common. -/
def CallsApart (p q : ℕ × ℕ) : Prop :=
  p.1 ≠ q.1 ∧ p.1 ≠ q.2 ∧ p.2 ≠ q.1 ∧ p.2 ≠ q.2

instance (p q : ℕ × ℕ) : Decidable (CallsApart p q) := by
  unfold CallsApart
  infer_instance

/-- No body is touched by two bands: no body is an argument of a call of
`checkCollision` in the tasks of two different bands. -/
def BandsShareNoBody (g : CollisionGrid) : Prop :=
  ∀ i < THREAD_COUNT, ∀ j < THREAD_COUNT, i ≠ j →
    ∀ p ∈ bandCalls g i, ∀ q ∈ bandCalls g j, CallsApart p q

instance (g : CollisionGrid) : Decidable (BandsShareNoBody g) := by
  unfold BandsShareNoBody
  infer_instance

/-- The schedule of a pool that runs the band tasks one after the other in the order
`order`, each to its end: every task has all its turns in one block. -/
def blockSchedule (g : CollisionGrid) (order : List ℕ) : List ℕ :=
  order.flatMap fun i => List.replicate (bandCalls g i).length i

/-! ## Auxiliary definitions for the statements and their proofs -/

/-- One axis of `enforceBoundaries`: the test against the far wall, then the test
against the near wall. -/
def clampAxis (lo hi p : ℚ) : ℚ :=
  let p1 := if p > hi then hi else p
  if p1 < lo then lo else p1

/-- The pointers of `l` whose body has cell index `(x, y)`, in the order of `l`. -/
def assigned (l : List (ℕ × PhysicsObject)) (x y : ℕ) : List ℕ :=
  (l.filter fun po => gridIndex po.2 = (x, y)).map Prod.fst

/-- The order of two steps does not matter for the result of a run. -/
def StepsCommute {α σ : Type} (body : α → σ → Run σ) (a b : α) : Prop :=
  ∀ s, ((body a s).andThen (body b)).result = ((body b s).andThen (body a)).result

/-! ## Concrete inputs -/

/-- A body of radius 4 in a box too small for it. -/
def tightBody : PhysicsObject := PhysicsObject.new ⟨5, 5⟩ 4 ⟨0, 0⟩

/-- A moving body well inside an 800 by 600 simulation. -/
def midLeft : PhysicsObject := PhysicsObject.new ⟨20, 20⟩ 4 ⟨1, 0⟩

/-- A resting body overlapping `midLeft` from the right. -/
def midRight : PhysicsObject := PhysicsObject.new ⟨23, 20⟩ 4 ⟨0, 0⟩

/-- A resting body whose centre coincides with that of `midLeft`. -/
def midTwin : PhysicsObject := PhysicsObject.new ⟨20, 20⟩ 4 ⟨0, 0⟩

/-- The grid of a 40 by 40 simulation, 8 by 8 cells, before any body is stored. -/
def smallGrid : CollisionGrid :=
  { width := gridDim 40, height := gridDim 40, cells := fun _ _ => CollisionNode.empty }

/-- Three bodies in a 40 by 40 simulation: two overlapping ones in the neighbouring
cells (2,2) and (3,2), a third one far away in cell (4,4). -/
def smallWorld : List PhysicsObject :=
  [PhysicsObject.new ⟨15, 12⟩ 4 ⟨0, 0⟩, PhysicsObject.new ⟨17, 12⟩ 4 ⟨0, 0⟩,
   PhysicsObject.new ⟨30, 30⟩ 4 ⟨0, 0⟩]

/-- Seventeen bodies with the same centre (20,20), all of cell (3,3). -/
def crowd : List PhysicsObject := List.replicate 17 midTwin

/-- A body just left of the coordinate 2040 at which the cell column reaches 256. -/
def farLeft : PhysicsObject := PhysicsObject.new ⟨2039, 20⟩ 4 ⟨0, 0⟩

/-- A body just right of the coordinate 2040, overlapping `farLeft`. -/
def farRight : PhysicsObject := PhysicsObject.new ⟨2041, 20⟩ 4 ⟨0, 0⟩

/-- A body of radius `OBJECT_SIZE` at x = 2040 inside a 4000 by 600 simulation. -/
def wideBody : PhysicsObject := PhysicsObject.new ⟨2040, 100⟩ (OBJECT_SIZE : ℚ) ⟨0, 0⟩

/-- A cell holding sixteen bodies, the pointers 0 to 15. -/
def fullCell : CollisionNode := { objects := fun i => i.val, numObjects := 16 }

/-- Three bodies in a 40 by 40 simulation: two overlapping ones above each other in
cell (2,3), a column of band 0, and one in cell (3,2), a column of band 1. -/
def bandWorld : List PhysicsObject :=
  [PhysicsObject.new ⟨10, 19⟩ 4 ⟨0, 0⟩, PhysicsObject.new ⟨16, 9⟩ 4 ⟨0, 0⟩,
   PhysicsObject.new ⟨10, 16⟩ 4 ⟨0, 0⟩]

/-- Three bodies in a 40 by 40 simulation whose cells (3,3), (3,3) and (4,2) all lie in
the columns 3 and 4 of band 1. -/
def oneBandWorld : List PhysicsObject :=
  [midLeft, midRight, PhysicsObject.new ⟨26, 12⟩ 4 ⟨0, 0⟩]

/-- Four bodies in a 40 by 40 simulation: two overlapping ones in cell (2,2), a column
of band 0, and two overlapping ones in the cells (4,2) and (4,3), a column of band 1.
Column 3 between them is empty. -/
def twoBandWorld : List PhysicsObject :=
  [PhysicsObject.new ⟨10, 12⟩ 4 ⟨0, 0⟩, PhysicsObject.new ⟨13, 12⟩ 4 ⟨0, 0⟩,
   PhysicsObject.new ⟨26, 12⟩ 4 ⟨1, 0⟩, PhysicsObject.new ⟨26, 17⟩ 4 ⟨0, 0⟩]

/-- A controller of an 800 by 600 simulation that holds `MAX_OBJECTS` bodies. -/
def fullController : PhysicsController :=
  { PhysicsController.new 800 600 with objects := List.replicate 2000 midRight }

/-- A short sequence of operations on the bodies of `smallWorld`. -/
def sampleOps : List BodyOp :=
  [BodyOp.accelerate 0 ⟨0, 45⟩, BodyOp.update 0 (1 / 60) 40 40,
   BodyOp.checkCollision 0 1 40 40, BodyOp.enforceBoundaries 1 40 40]

/-! # Theorems -/

/-! ## Boundary enforcement -/

theorem enforceBoundaries_radius (o : PhysicsObject) (w h : ℕ) :
    (o.enforceBoundaries w h).radius = o.radius := by
  unfold enforceBoundaries
  simp only []
  split_ifs <;> rfl

theorem enforceBoundaries_mass (o : PhysicsObject) (w h : ℕ) :
    (o.enforceBoundaries w h).mass = o.mass := by
  unfold enforceBoundaries
  simp only []
  split_ifs <;> rfl

theorem enforceBoundaries_position_x (o : PhysicsObject) (w h : ℕ) :
    (o.enforceBoundaries w h).position.x =
      clampAxis (o.radius + IMGUI_FRAME_MARGIN) ((w : ℚ) - o.radius - IMGUI_FRAME_MARGIN)
        o.position.x := by
  unfold enforceBoundaries clampAxis
  simp only []
  split_ifs <;> simp_all

theorem enforceBoundaries_position_y (o : PhysicsObject) (w h : ℕ) :
    (o.enforceBoundaries w h).position.y =
      clampAxis (o.radius + IMGUI_FRAME_MARGIN) ((h : ℚ) - o.radius - IMGUI_FRAME_MARGIN)
        o.position.y := by
  unfold enforceBoundaries clampAxis
  simp only []
  split_ifs <;> simp_all

theorem clampAxis_ge (lo hi p : ℚ) : lo ≤ clampAxis lo hi p := by
  unfold clampAxis
  simp only []
  split_ifs <;> linarith

theorem clampAxis_le (lo hi p : ℚ) (h : lo ≤ hi) : clampAxis lo hi p ≤ hi := by
  unfold clampAxis
  simp only []
  split_ifs <;> linarith

/-- A body already inside the walls is left as it is. -/
theorem enforceBoundaries_of_inBounds (o : PhysicsObject) (w h : ℕ) (hb : o.InBounds w h) :
    o.enforceBoundaries w h = o := by
  obtain ⟨h1, h2, h3, h4⟩ := hb
  simp [enforceBoundaries, not_lt.mpr h1, not_lt.mpr h2, not_lt.mpr h3, not_lt.mpr h4]

/-- The near-wall bounds hold after `enforceBoundaries` whatever the extent is: the
near-wall tests run last on each axis. -/
theorem enforceBoundaries_lower (o : PhysicsObject) (w h : ℕ) :
    o.radius + IMGUI_FRAME_MARGIN ≤ (o.enforceBoundaries w h).position.x ∧
    o.radius + IMGUI_FRAME_MARGIN ≤ (o.enforceBoundaries w h).position.y := by
  rw [enforceBoundaries_position_x, enforceBoundaries_position_y]
  exact ⟨clampAxis_ge _ _ _, clampAxis_ge _ _ _⟩

/-- C1, as stated, fails: a body of radius 4 at (5,5) in a 10 by 10 simulation ends at
(8,8), beyond the far-wall bound `10 - 4 - 4 = 2` on both axes. -/
theorem C1_counterexample : ¬ (tightBody.enforceBoundaries 10 10).InBounds 10 10 := by
  norm_num [tightBody, PhysicsObject.new, enforceBoundaries, InBounds, IMGUI_FRAME_MARGIN,
    ELASTICITY]

/-- C1, amended: when the extent has room for the body on both axes,
`width ≥ 2 * (radius + IMGUI_FRAME_MARGIN)` and likewise for `height`, the position
after `enforceBoundaries` satisfies
`radius + margin ≤ x ≤ width - radius - margin` and
`radius + margin ≤ y ≤ height - radius - margin`. -/
theorem C1_enforceBoundaries_inBounds (o : PhysicsObject) (w h : ℕ)
    (hw : 2 * (o.radius + IMGUI_FRAME_MARGIN) ≤ w)
    (hh : 2 * (o.radius + IMGUI_FRAME_MARGIN) ≤ h) :
    (o.enforceBoundaries w h).InBounds w h := by
  unfold InBounds
  rw [enforceBoundaries_position_x, enforceBoundaries_position_y, enforceBoundaries_radius]
  exact ⟨clampAxis_ge _ _ _, clampAxis_le _ _ _ (by linarith), clampAxis_ge _ _ _,
    clampAxis_le _ _ _ (by linarith)⟩

/-- C1, amended, at a body of radius 4 pushed out of the lower right corner of an 800 by
600 simulation. -/
theorem C1_enforceBoundaries_inBounds_witness :
    ((PhysicsObject.new ⟨900, 700⟩ 4 ⟨3, 2⟩).enforceBoundaries 800 600).InBounds 800 600 :=
  C1_enforceBoundaries_inBounds (PhysicsObject.new ⟨900, 700⟩ 4 ⟨3, 2⟩) 800 600
    (by norm_num [PhysicsObject.new, IMGUI_FRAME_MARGIN])
    (by norm_num [PhysicsObject.new, IMGUI_FRAME_MARGIN])

/-! ## Narrow phase -/

theorem fdiv_zero (a : ℚ) : fdiv a 0 = none := by
  simp [fdiv]

theorem divScalar_zero (a : Vec2) : divScalar a 0 = none := by
  simp [divScalar, fdiv_zero]

/-- Coincident centres with a positive radius sum: the first division of the collision
response, `distanceVector / dist`, has divisor zero. -/
theorem checkCollision_coincident (len : Vec2 → ℚ) (W H : ℕ) (o1 o2 : PhysicsObject)
    (hp : o1.position = o2.position) (hlen : len ⟨0, 0⟩ = 0)
    (hr : 0 < o1.radius + o2.radius) :
    checkCollision len W H o1 o2 = none := by
  have hsub : Vec2.sub o1.position o2.position = ⟨0, 0⟩ := by
    rw [hp]; simp [Vec2.sub]
  unfold checkCollision
  simp only [hsub, hlen, hr, if_true]
  unfold collisionResponse
  simp [hsub, divScalar_zero]

/-- C3: the code at the failing input.  Two bodies of radius 4 with the same centre
(20,20): `dist` is 0, the branch `dist < minDist` is taken and `distanceVector / dist`
divides by zero. -/
theorem C3_checkCollision_coincident_divides_by_zero :
    midLeft.position = midTwin.position ∧
    checkCollision axisLength 800 600 midLeft midTwin = none := by
  constructor <;> decide!

theorem CollisionNode.members_insert (c : CollisionNode) (obj : ℕ)
    (h : c.numObjects < MAX_COLLISION_NODE_OBJECTS) :
    CollisionNode.members
        { objects := Function.update c.objects ⟨c.numObjects, h⟩ obj,
          numObjects := c.numObjects + 1 } =
      c.members ++ [obj] := by
  unfold CollisionNode.members CollisionNode.count
  simp only [List.range_succ, List.filterMap_append, List.filterMap_cons, List.filterMap_nil]
  congr 1
  · apply List.filterMap_congr
    intro i hi
    have hlt : i < c.numObjects := List.mem_range.mp hi
    by_cases h16 : i < MAX_COLLISION_NODE_OBJECTS
    · have hne : (⟨i, h16⟩ : Fin MAX_COLLISION_NODE_OBJECTS) ≠ ⟨c.numObjects, h⟩ := by
        intro heq
        have := congrArg Fin.val heq
        simp at this
        omega
      simp [h16, Function.update_noteq hne]
    · simp [h16]
  · simp [h]

theorem sum_range_bump (f g : ℕ → ℕ) (n a : ℕ) (ha : a < n)
    (hne : ∀ x, x ≠ a → g x = f x) (heq : g a = f a + 1) :
    ((List.range n).map g).sum = ((List.range n).map f).sum + 1 := by
  induction n with
  | zero => omega
  | succ n ih =>
    simp only [List.range_succ, List.map_append, List.sum_append, List.map_cons, List.map_nil,
      List.sum_cons, List.sum_nil, add_zero]
    by_cases han : a = n
    · subst han
      have hsame : (List.range a).map g = (List.range a).map f := by
        apply List.map_congr_left
        intro x hx
        exact hne x (by have := List.mem_range.mp hx; omega)
      rw [hsame, heq]
      omega
    · rw [ih (by omega), hne n (fun h => han h.symm)]
      omega

theorem sum_range_same (f g : ℕ → ℕ) (n : ℕ) (h : ∀ x, x < n → g x = f x) :
    ((List.range n).map g).sum = ((List.range n).map f).sum := by
  congr 1
  apply List.map_congr_left
  intro x hx
  exact h x (List.mem_range.mp hx)

/-- An insertion that succeeds raises the sum of the cell counts by one. -/
theorem CollisionGrid.totalCount_insert (g g1 : CollisionGrid) (obj : ℕ) (index : ℕ × ℕ)
    (h : g.insert obj index = done g1) : g1.totalCount = g.totalCount + 1 := by
  unfold CollisionGrid.insert at h
  split_ifs at h with hin
  unfold CollisionNode.insert at h
  split_ifs at h with hcap
  simp only [Run.done.injEq] at h
  subst h
  unfold CollisionGrid.totalCount
  simp only []
  apply sum_range_bump _ _ _ index.1 hin.1
  · intro x hx
    apply sum_range_same
    intro y _
    simp [hx]
  · apply sum_range_bump _ _ _ index.2 hin.2
    · intro y hy
      simp [hy]
    · simp [CollisionNode.count]


theorem assigned_cons_self (po : ℕ × PhysicsObject) (rest : List (ℕ × PhysicsObject)) :
    assigned (po :: rest) (gridIndex po.2).1 (gridIndex po.2).2 =
      po.1 :: assigned rest (gridIndex po.2).1 (gridIndex po.2).2 := by
  simp [assigned]

theorem assigned_cons_other (po : ℕ × PhysicsObject) (rest : List (ℕ × PhysicsObject))
    (x y : ℕ) (h : ¬ (x = (gridIndex po.2).1 ∧ y = (gridIndex po.2).2)) :
    assigned (po :: rest) x y = assigned rest x y := by
  have hne : ¬ gridIndex po.2 = (x, y) := by
    intro heq
    apply h
    rw [heq]
    exact ⟨rfl, rfl⟩
  simp [assigned, hne]

/-- An insertion into a cell of the grid that is not full succeeds and changes that
cell only. -/
theorem CollisionGrid.insert_spec (g : CollisionGrid) (obj : ℕ) (index : ℕ × ℕ)
    (hin : index.1 < g.width ∧ index.2 < g.height)
    (hlt : (g.cells index.1 index.2).numObjects < MAX_COLLISION_NODE_OBJECTS) :
    ∃ g1, g.insert obj index = done g1 ∧ g1.width = g.width ∧ g1.height = g.height ∧
      (g1.cells index.1 index.2).numObjects = (g.cells index.1 index.2).numObjects + 1 ∧
      (g1.cells index.1 index.2).members = (g.cells index.1 index.2).members ++ [obj] ∧
      ∀ x y, ¬ (x = index.1 ∧ y = index.2) → g1.cells x y = g.cells x y := by
  refine ⟨CollisionGrid.mk g.width g.height (fun x y =>
      if x = index.1 ∧ y = index.2 then
        CollisionNode.mk (Function.update (g.cells index.1 index.2).objects
            ⟨(g.cells index.1 index.2).numObjects, hlt⟩ obj)
          ((g.cells index.1 index.2).numObjects + 1)
      else g.cells x y), ?_, rfl, rfl, ?_, ?_, ?_⟩
  · simp [CollisionGrid.insert, CollisionNode.insert, hin, hlt]
  · simp
  · simp only [and_self, if_true]
    exact CollisionNode.members_insert _ _ hlt
  · intro x y hxy
    simp only [hxy, if_false]

/-- Inserting the bodies of `l` one after the other: when every index lies in the grid
and no cell is asked to hold more than its capacity, every insertion succeeds, the sum
of the counts grows by the length of `l`, and each cell receives, in order, the
pointers assigned to it. -/
theorem forEach_insert (l : List (ℕ × PhysicsObject)) (g : CollisionGrid)
    (hin : ∀ po ∈ l, (gridIndex po.2).1 < g.width ∧ (gridIndex po.2).2 < g.height)
    (hcap : ∀ x y, (g.cells x y).numObjects + (assigned l x y).length ≤
      MAX_COLLISION_NODE_OBJECTS) :
    ∃ g1, forEach l (fun po grid => grid.insert po.1 (gridIndex po.2)) g = done g1 ∧
      g1.width = g.width ∧ g1.height = g.height ∧
      g1.totalCount = g.totalCount + l.length ∧
      ∀ x y, (g1.cells x y).members = (g.cells x y).members ++ assigned l x y := by
  induction l generalizing g with
  | nil =>
    exact ⟨g, rfl, rfl, rfl, rfl, fun x y => by simp [assigned]⟩
  | cons po rest ih =>
    have hin0 := hin po (List.mem_cons_self _ _)
    have hc := hcap (gridIndex po.2).1 (gridIndex po.2).2
    rw [assigned_cons_self, List.length_cons] at hc
    have hlt : (g.cells (gridIndex po.2).1 (gridIndex po.2).2).numObjects <
        MAX_COLLISION_NODE_OBJECTS := by omega
    obtain ⟨g0, hins, hw0, hh0, hnum0, hmem0, hother0⟩ :=
      CollisionGrid.insert_spec g po.1 (gridIndex po.2) hin0 hlt
    have htot := CollisionGrid.totalCount_insert _ _ _ _ hins
    obtain ⟨g1, hrun, hw, hh, hcount, hmem⟩ := ih g0
      (fun po1 hpo1 => by
        rw [hw0, hh0]
        exact hin po1 (List.mem_cons_of_mem _ hpo1))
      (fun x y => by
        by_cases hxy : x = (gridIndex po.2).1 ∧ y = (gridIndex po.2).2
        · obtain ⟨hx, hy⟩ := hxy
          subst hx hy
          rw [hnum0]
          omega
        · have := hcap x y
          rw [assigned_cons_other _ _ _ _ hxy] at this
          rw [hother0 x y hxy]
          exact this)
    refine ⟨g1, ?_, hw.trans hw0, hh.trans hh0, ?_, ?_⟩
    · simp only [forEach, hins, Run.andThen]
      exact hrun
    · rw [hcount, htot, List.length_cons]
      omega
    · intro x y
      rw [hmem x y]
      by_cases hxy : x = (gridIndex po.2).1 ∧ y = (gridIndex po.2).2
      · obtain ⟨hx, hy⟩ := hxy
        subst hx hy
        rw [hmem0, assigned_cons_self]
        simp
      · rw [hother0 x y hxy, assigned_cons_other _ _ _ _ hxy]

theorem CollisionGrid.totalCount_clear (g : CollisionGrid) : g.clear.totalCount = 0 := by
  simp [CollisionGrid.totalCount, CollisionGrid.clear, CollisionNode.clear, CollisionNode.count]

theorem CollisionGrid.members_clear (g : CollisionGrid) (x y : ℕ) :
    (g.clear.cells x y).members = [] := by
  simp [CollisionGrid.clear, CollisionNode.clear, CollisionNode.members, CollisionNode.count]

theorem assigned_length_enumFrom (l : List PhysicsObject) (n x y : ℕ) :
    (assigned (l.enumFrom n) x y).length =
      (l.filter fun o => gridIndex o = (x, y)).length := by
  induction l generalizing n with
  | nil => simp [assigned]
  | cons o rest ih =>
    have := ih (n + 1)
    simp only [assigned, List.length_map] at this ⊢
    simp only [List.enumFrom_cons, List.filter_cons]
    split_ifs <;> simp [this]

theorem mem_assigned_enum (l : List PhysicsObject) (p x y : ℕ) :
    p ∈ assigned l.enum x y ↔ ∃ o, l[p]? = some o ∧ gridIndex o = (x, y) := by
  simp only [assigned, List.mem_map, List.mem_filter, decide_eq_true_eq]
  constructor
  · rintro ⟨⟨q, o⟩, ⟨hmem, hidx⟩, hq⟩
    simp only at hq hidx
    subst hq
    exact ⟨o, List.mk_mem_enum_iff_getElem?.mp hmem, hidx⟩
  · rintro ⟨o, ho, hidx⟩
    exact ⟨(p, o), ⟨List.mk_mem_enum_iff_getElem?.mpr ho, hidx⟩, rfl⟩

theorem assigned_enum_nodup (l : List PhysicsObject) (x y : ℕ) :
    (assigned l.enum x y).Nodup := by
  unfold assigned
  have h1 : (l.enum.map Prod.fst).Nodup := List.nodup_enum_map_fst l
  have h2 : (l.enum.filter fun po => gridIndex po.2 = (x, y)).Sublist l.enum :=
    List.filter_sublist _
  exact List.Nodup.sublist (List.Sublist.map _ h2) h1


/-- C5, as stated, fails: with seventeen bodies at the same centre the seventeenth
insertion finds its cell full, the assertion of `CollisionNode::insert` fires, and the
cell counts sum to 16, not 17. -/
theorem C5_counterexample :
    (rebuildGrid smallGrid crowd).isDone = false ∧
    (rebuildGrid smallGrid crowd).state.totalCount ≠ crowd.length := by
  constructor <;> decide!

/-- C5, amended: for every list of N bodies whose cell indices all lie in the grid and
of which no more than `MAX_COLLISION_NODE_OBJECTS` share a cell index, the grid rebuild
(`grid->clear()` followed by the insertion of every body at its cell index) runs to its
end, the sum of `count()` over all cells of the grid is exactly N, and each body is
stored in exactly one cell of the grid, once. -/
theorem C5_rebuildGrid_counts (g : CollisionGrid) (objects : List PhysicsObject)
    (hin : ∀ o ∈ objects, (gridIndex o).1 < g.width ∧ (gridIndex o).2 < g.height)
    (hcap : ∀ x y, (objects.filter fun o => gridIndex o = (x, y)).length ≤
      MAX_COLLISION_NODE_OBJECTS) :
    ∃ g1, rebuildGrid g objects = done g1 ∧ g1.totalCount = objects.length ∧
      (∀ p, p < objects.length →
        ∃! xy : ℕ × ℕ, xy.1 < g1.width ∧ xy.2 < g1.height ∧
          p ∈ (g1.cells xy.1 xy.2).members) ∧
      ∀ x y, (g1.cells x y).members.Nodup := by
  obtain ⟨g1, hrun, hw, hh, hcount, hmem⟩ := forEach_insert objects.enum g.clear
    (fun po hpo => hin po.2 (by
      have := List.mem_enum_iff_getElem?.mp hpo
      exact List.getElem?_mem this))
    (fun x y => by
      have h0 : (g.clear.cells x y).numObjects = 0 := rfl
      rw [h0, List.enum, assigned_length_enumFrom, Nat.zero_add]
      exact hcap x y)
  have hmem1 : ∀ x y, (g1.cells x y).members = assigned objects.enum x y := by
    intro x y
    rw [hmem x y, CollisionGrid.members_clear, List.nil_append]
  refine ⟨g1, hrun, ?_, ?_, ?_⟩
  · rw [hcount, CollisionGrid.totalCount_clear, List.enum_length, Nat.zero_add]
  · intro p hp
    have hget : objects[p]? = some objects[p] := List.getElem?_eq_getElem hp
    have hr := hin objects[p] (List.getElem_mem hp)
    refine ⟨gridIndex objects[p], ⟨?_, ?_, ?_⟩, ?_⟩
    · rw [hw]; exact hr.1
    · rw [hh]; exact hr.2
    · rw [hmem1, mem_assigned_enum]
      exact ⟨objects[p], hget, rfl⟩
    · rintro ⟨x, y⟩ ⟨_, _, hxy⟩
      rw [hmem1, mem_assigned_enum] at hxy
      obtain ⟨o, ho, hidx⟩ := hxy
      rw [hget] at ho
      cases ho
      exact hidx.symm
  · intro x y
    rw [hmem1]
    exact assigned_enum_nodup objects x y

/-- C5, amended, at three bodies in the grid of a 40 by 40 simulation. -/
theorem C5_rebuildGrid_counts_witness :
    ∃ g1, rebuildGrid smallGrid smallWorld = done g1 ∧ g1.totalCount = smallWorld.length ∧
      (∀ p, p < smallWorld.length →
        ∃! xy : ℕ × ℕ, xy.1 < g1.width ∧ xy.2 < g1.height ∧
          p ∈ (g1.cells xy.1 xy.2).members) ∧
      ∀ x y, (g1.cells x y).members.Nodup :=
  C5_rebuildGrid_counts smallGrid smallWorld (by decide!)
    (fun _ _ => (List.length_filter_le _ _).trans (by decide))

/-! ## Cell indices inside the 8-bit range -/

/-- Below 256 the conversion to `uint8_t` is the floor. -/
theorem toUint8_of_lt (q : ℚ) (h0 : 0 ≤ q) (h1 : q < 256) : (toUint8 q : ℤ) = ⌊q⌋ := by
  unfold toUint8
  have hf0 : 0 ≤ ⌊q⌋ := Int.floor_nonneg.mpr h0
  have hf1 : ⌊q⌋ < 256 := Int.floor_lt.mpr (by exact_mod_cast h1)
  simp only [h0, if_true]
  rw [Int.emod_eq_of_lt hf0 hf1, Int.toNat_of_nonneg hf0]

/-- The cell coordinate of a float coordinate in `[0, 2040)` is `floor(p / 8) + 1`. -/
theorem cellCoord_of_lt (p : ℚ) (h0 : 0 ≤ p) (h1 : p < 2040) :
    (toUint8 (p / (CELL_SIZE : ℚ) + 1) : ℤ) = ⌊p / 8⌋ + 1 := by
  have hc : (CELL_SIZE : ℚ) = 8 := by norm_num [CELL_SIZE, OBJECT_SIZE]
  rw [hc, toUint8_of_lt _ (by positivity) (by linarith), Int.floor_add_one]

theorem cellCoord_close (p q : ℚ) (hp0 : 0 ≤ p) (hp1 : p < 2040) (hq0 : 0 ≤ q)
    (hq1 : q < 2040) (hpq : (p - q) * (p - q) < 64) :
    toUint8 (p / (CELL_SIZE : ℚ) + 1) ≤ toUint8 (q / (CELL_SIZE : ℚ) + 1) + 1 := by
  have h1 := cellCoord_of_lt p hp0 hp1
  have h2 := cellCoord_of_lt q hq0 hq1
  have hlt : p - q < 8 := by nlinarith
  have hfl : ⌊p / 8⌋ ≤ ⌊q / 8⌋ + 1 := by
    rw [← Int.floor_add_one]
    apply Int.floor_mono
    linarith
  omega

/-- Away from the 8-bit limit the neighbourhood invariant holds: two bodies of radius at
most `CELL_SIZE / 2` with coordinates in `[0, 2040)` whose centres are closer than
`r1 + r2` have cell indices that differ by at most 1 in each axis. -/
theorem gridIndex_adjacent_of_close (len : Vec2 → ℚ) (o1 o2 : PhysicsObject)
    (hr1 : o1.radius ≤ (CELL_SIZE : ℚ) / 2) (hr2 : o2.radius ≤ (CELL_SIZE : ℚ) / 2)
    (hx1 : 0 ≤ o1.position.x ∧ o1.position.x < 2040)
    (hy1 : 0 ≤ o1.position.y ∧ o1.position.y < 2040)
    (hx2 : 0 ≤ o2.position.x ∧ o2.position.x < 2040)
    (hy2 : 0 ≤ o2.position.y ∧ o2.position.y < 2040)
    (hd : ExactAt len (Vec2.sub o1.position o2.position))
    (hlt : len (Vec2.sub o1.position o2.position) < o1.radius + o2.radius) :
    ((gridIndex o1).1 ≤ (gridIndex o2).1 + 1 ∧ (gridIndex o2).1 ≤ (gridIndex o1).1 + 1) ∧
    ((gridIndex o1).2 ≤ (gridIndex o2).2 + 1 ∧ (gridIndex o2).2 ≤ (gridIndex o1).2 + 1) := by
  have hc : (CELL_SIZE : ℚ) = 8 := by norm_num [CELL_SIZE, OBJECT_SIZE]
  rw [hc] at hr1 hr2
  obtain ⟨hl0, hsq⟩ := hd
  have hL : len (Vec2.sub o1.position o2.position) < 8 := by linarith
  have hdot : Vec2.dot (Vec2.sub o1.position o2.position)
      (Vec2.sub o1.position o2.position) < 64 := by
    rw [← hsq]; nlinarith
  simp only [Vec2.dot, Vec2.sub] at hdot
  have hxx : (o1.position.x - o2.position.x) * (o1.position.x - o2.position.x) < 64 := by
    nlinarith [mul_self_nonneg (o1.position.y - o2.position.y)]
  have hyy : (o1.position.y - o2.position.y) * (o1.position.y - o2.position.y) < 64 := by
    nlinarith [mul_self_nonneg (o1.position.x - o2.position.x)]
  have hxx' : (o2.position.x - o1.position.x) * (o2.position.x - o1.position.x) < 64 := by
    nlinarith
  have hyy' : (o2.position.y - o1.position.y) * (o2.position.y - o1.position.y) < 64 := by
    nlinarith
  unfold gridIndex
  exact ⟨⟨cellCoord_close _ _ hx1.1 hx1.2 hx2.1 hx2.2 hxx,
      cellCoord_close _ _ hx2.1 hx2.2 hx1.1 hx1.2 hxx'⟩,
    ⟨cellCoord_close _ _ hy1.1 hy1.2 hy2.1 hy2.2 hyy,
      cellCoord_close _ _ hy2.1 hy2.2 hy1.1 hy1.2 hyy'⟩⟩

theorem cellCoord_inside (p : ℚ) (extent : ℕ) (he : extent < 2048)
    (h0 : (OBJECT_SIZE : ℚ) + IMGUI_FRAME_MARGIN ≤ p)
    (h1 : p ≤ (extent : ℚ) - (OBJECT_SIZE : ℚ) - IMGUI_FRAME_MARGIN) :
    1 ≤ toUint8 (p / (CELL_SIZE : ℚ) + 1) ∧
      toUint8 (p / (CELL_SIZE : ℚ) + 1) ≤ gridDim extent - 2 := by
  have hc : (CELL_SIZE : ℚ) = 8 := by norm_num [CELL_SIZE, OBJECT_SIZE]
  have ho : (OBJECT_SIZE : ℚ) = 4 := by norm_num [OBJECT_SIZE]
  rw [ho] at h0 h1
  unfold IMGUI_FRAME_MARGIN at h0 h1
  have he' : (extent : ℚ) < 2048 := by exact_mod_cast he
  have hcell := cellCoord_of_lt p (by linarith) (by linarith)
  have hfp : 1 ≤ ⌊p / 8⌋ := Int.le_floor.mpr (by push_cast; linarith)
  have hfe : ⌊p / 8⌋ + 1 ≤ ⌊(extent : ℚ) / 8⌋ := by
    rw [← Int.floor_add_one]
    apply Int.floor_mono
    linarith
  have hdim : (gridDim extent : ℤ) = ⌊(extent : ℚ) / 8⌋ + 3 := by
    unfold gridDim
    rw [hc]
    exact Int.toNat_of_nonneg (by omega)
  omega

/-- Away from the 8-bit limit the index lies strictly inside the border ring: for
extents below 2048 a body of radius `OBJECT_SIZE` inside the walls has
`1 ≤ ix ≤ gridWidth - 2` and `1 ≤ iy ≤ gridHeight - 2`. -/
theorem gridIndex_inside_of_small_extent (o : PhysicsObject) (W H : ℕ)
    (hW : W < 2048) (hH : H < 2048) (hr : o.radius = (OBJECT_SIZE : ℚ))
    (hb : o.InBounds W H) :
    (1 ≤ (gridIndex o).1 ∧ (gridIndex o).1 ≤ gridDim W - 2) ∧
    (1 ≤ (gridIndex o).2 ∧ (gridIndex o).2 ≤ gridDim H - 2) := by
  obtain ⟨h1, h2, h3, h4⟩ := hb
  rw [hr] at h1 h2 h3 h4
  unfold gridIndex
  exact ⟨cellCoord_inside _ W hW h1 h2, cellCoord_inside _ H hH h3 h4⟩

/-- C6: the code at the failing input.  Two bodies of radius 4 with non-negative
coordinates, centred at (2039,20) and (2041,20), 2 apart: the 8-bit cell columns are
255 and 0. -/
theorem C6_gridIndex_wraps :
    farLeft.radius ≤ (CELL_SIZE : ℚ) / 2 ∧ farRight.radius ≤ (CELL_SIZE : ℚ) / 2 ∧
    ExactAt axisLength (Vec2.sub farLeft.position farRight.position) ∧
    axisLength (Vec2.sub farLeft.position farRight.position) <
      farLeft.radius + farRight.radius ∧
    gridIndex farLeft = (255, 3) ∧ gridIndex farRight = (0, 3) := by
  unfold ExactAt
  refine ⟨?_, ?_, ?_, ?_, ?_, ?_⟩ <;> decide!

/-- C7: the code at the failing input.  In a 4000 by 600 simulation the grid has 503
columns; a body of radius `OBJECT_SIZE` at (2040,100) lies inside the range enforced by
`enforceBoundaries`, and its 8-bit cell column is 0, in the border ring. -/
theorem C7_gridIndex_in_border_ring :
    wideBody.radius = (OBJECT_SIZE : ℚ) ∧ wideBody.InBounds 4000 600 ∧
    gridDim 4000 = 503 ∧ gridDim 600 = 78 ∧ gridIndex wideBody = (0, 13) := by
  refine ⟨?_, ?_, ?_, ?_, ?_⟩ <;> decide!

/-- C8: `CollisionNode::insert` on a cell holding `maxObjects` bodies (or more) stops at
the assertion with the cell as it was, count and stored pointers included; on a cell
holding fewer it runs to its end, the body is stored at index `count()`, `count()` grows
by exactly one and no other slot changes. -/
theorem C8_insert (c : CollisionNode) (obj : ℕ) :
    (CollisionNode.maxObjects ≤ c.count → c.insert obj = stopped Fault.assertion c) ∧
    (∀ h : c.count < CollisionNode.maxObjects,
      ∃ c1, c.insert obj = done c1 ∧ c1.objects ⟨c.count, h⟩ = obj ∧
        c1.count = c.count + 1 ∧ ∀ i, i ≠ ⟨c.count, h⟩ → c1.objects i = c.objects i) := by
  constructor
  · intro h
    have hn : ¬ c.numObjects < MAX_COLLISION_NODE_OBJECTS := not_lt.mpr h
    simp [CollisionNode.insert, hn]
  · intro h
    have hn : c.numObjects < MAX_COLLISION_NODE_OBJECTS := h
    refine ⟨CollisionNode.mk (Function.update c.objects ⟨c.numObjects, hn⟩ obj)
      (c.numObjects + 1), ?_, ?_, rfl, ?_⟩
    · simp [CollisionNode.insert, hn]
    · simp [CollisionNode.count]
    · intro i hi
      exact Function.update_noteq hi _ _

/-- C8 at a full cell and at an empty cell. -/
theorem C8_insert_witness :
    fullCell.insert 99 = stopped Fault.assertion fullCell ∧
    ∃ c1, CollisionNode.empty.insert 99 = done c1 ∧
      c1.objects ⟨CollisionNode.empty.count, by decide⟩ = 99 ∧
      c1.count = CollisionNode.empty.count + 1 ∧
      ∀ i, i ≠ ⟨CollisionNode.empty.count, by decide⟩ →
        c1.objects i = CollisionNode.empty.objects i :=
  ⟨(C8_insert fullCell 99).1 (by decide), (C8_insert CollisionNode.empty 99).2 (by decide)⟩

/-! ## The sweep -/

theorem mem_intRange (lo hi k : ℤ) : k ∈ intRange lo hi ↔ lo ≤ k ∧ k < hi := by
  unfold intRange
  simp only [List.mem_map, List.mem_range]
  constructor
  · rintro ⟨n, hn, rfl⟩
    omega
  · rintro ⟨h1, h2⟩
    exact ⟨(k - lo).toNat, by omega, by omega⟩

/-- A property of the state that every pass of a loop body keeps is kept by the loop,
whether it runs to its end or stops. -/
theorem forEach_preserves {α σ : Type} (P : σ → Prop) (l : List α) (body : α → σ → Run σ)
    (h : ∀ a ∈ l, ∀ s, P s → P (body a s).state) (s : σ) (hs : P s) :
    P (forEach l body s).state := by
  induction l generalizing s with
  | nil => exact hs
  | cons a rest ih =>
    have ha := h a (List.mem_cons_self _ _) s hs
    unfold forEach
    cases hb : body a s with
    | done s1 =>
      rw [hb] at ha
      exact ih (fun b hb1 => h b (List.mem_cons_of_mem _ hb1)) s1 ha
    | stopped f s1 =>
      rw [hb] at ha
      exact ha

theorem andThen_done {σ : Type} (r : Run σ) : r.andThen done = r := by
  cases r <;> rfl

theorem forEach_congr {α σ : Type} (l : List α) (f g : α → σ → Run σ)
    (h : ∀ a ∈ l, ∀ s, f a s = g a s) (s : σ) : forEach l f s = forEach l g s := by
  induction l generalizing s with
  | nil => rfl
  | cons a rest ih =>
    unfold forEach
    rw [h a (List.mem_cons_self _ _) s]
    cases g a s with
    | done s1 => exact ih (fun b hb => h b (List.mem_cons_of_mem _ hb)) s1
    | stopped f1 s1 => rfl

/-- Passes of a loop that do nothing can be left out. -/
theorem forEach_filter {α σ : Type} (P : α → Prop) [DecidablePred P] (l : List α)
    (body : α → σ → Run σ) (h : ∀ a ∈ l, ¬ P a → ∀ s, body a s = done s) (s : σ) :
    forEach l body s = forEach (l.filter fun a => P a) body s := by
  induction l generalizing s with
  | nil => rfl
  | cons a rest ih =>
    have hrest : ∀ b ∈ rest, ¬ P b → ∀ s, body b s = done s :=
      fun b hb => h b (List.mem_cons_of_mem _ hb)
    by_cases hP : P a
    · have hf : (a :: rest).filter (fun a => P a) = a :: rest.filter (fun a => P a) := by
        simp [List.filter_cons, hP]
      rw [hf]
      show (body a s).andThen (forEach rest body) =
        (body a s).andThen (forEach (rest.filter fun a => P a) body)
      cases body a s with
      | done s1 => exact ih hrest s1
      | stopped f1 s1 => rfl
    · have hf : (a :: rest).filter (fun a => P a) = rest.filter (fun a => P a) := by
        simp [List.filter_cons, hP]
      rw [hf]
      show (body a s).andThen (forEach rest body) = _
      rw [h a (List.mem_cons_self _ _) hP s]
      exact ih hrest s

theorem intRange_sorted (lo hi : ℤ) : (intRange lo hi).Sorted (· < ·) := by
  unfold intRange
  rw [List.Sorted, List.pairwise_map]
  have h := List.pairwise_lt_range (hi - lo).toNat
  exact h.imp (fun {a b} hab => by omega)

/-- Two column ranges hold the same occupied columns, in the same order, when every
occupied column lies in both or in neither. -/
theorem filter_intRange_eq (P : ℤ → Prop) [DecidablePred P] (a b c d : ℤ)
    (h : ∀ x, P x → (x ∈ intRange a b ↔ x ∈ intRange c d)) :
    (intRange a b).filter (fun x => P x) = (intRange c d).filter (fun x => P x) := by
  apply List.eq_of_perm_of_sorted (r := (· < ·))
  · apply (List.perm_ext_iff_of_nodup _ _).mpr
    · intro x
      simp only [List.mem_filter, decide_eq_true_eq]
      constructor
      · rintro ⟨h1, h2⟩
        exact ⟨(h x h2).mp h1, h2⟩
      · rintro ⟨h1, h2⟩
        exact ⟨(h x h2).mpr h1, h2⟩
    · exact ((intRange_sorted a b).nodup).filter _
    · exact ((intRange_sorted c d).nodup).filter _
  · exact (intRange_sorted a b).filter _
  · exact (intRange_sorted c d).filter _

theorem visitCell_empty (len : Vec2 → ℚ) (W H : ℕ) (g : CollisionGrid) (i j : ℤ)
    (h : ¬ (g.getCell i j).count ≠ 0) (s : List PhysicsObject) :
    visitCell len W H g i j s = done s := by
  have h0 : (g.getCell i j).count = 0 := not_not.mp h
  simp [visitCell, h0]

/-- Two sweeps of a row over column ranges with the same occupied columns are the same
function. -/
theorem sweepRow_eq (len : Vec2 → ℚ) (W H : ℕ) (g : CollisionGrid) (j a b c d : ℤ)
    (h : ∀ x, (g.getCell x j).count ≠ 0 → (x ∈ intRange a b ↔ x ∈ intRange c d))
    (s : List PhysicsObject) :
    forEach (intRange a b) (fun i => visitCell len W H g i j) s =
      forEach (intRange c d) (fun i => visitCell len W H g i j) s := by
  rw [forEach_filter (fun x => (g.getCell x j).count ≠ 0) (intRange a b) _
      (fun x _ hx s1 => visitCell_empty len W H g x j hx s1),
    forEach_filter (fun x => (g.getCell x j).count ≠ 0) (intRange c d) _
      (fun x _ hx s1 => visitCell_empty len W H g x j hx s1),
    filter_intRange_eq _ a b c d h]

theorem bandRange_fst_pos (w i : ℕ) : 1 ≤ (bandRange w i).1 := by
  unfold bandRange
  simp only []
  have : (0 : ℤ) ≤ ⌊(w : ℚ) / (THREAD_COUNT : ℚ) * (i : ℚ)⌋ := by
    apply Int.floor_nonneg.mpr
    positivity
  omega

theorem bandRange_snd_pos (w i : ℕ) : 1 ≤ (bandRange w i).2 := by
  unfold bandRange
  simp only []
  have : (0 : ℤ) ≤ ⌊(w : ℚ) / (THREAD_COUNT : ℚ) * ((i : ℚ) + 1)⌋ := by
    apply Int.floor_nonneg.mpr
    positivity
  omega

/-- The bands follow each other: a band ends where the next one starts, and starts are
monotone in the band number. -/
theorem bandRange_snd_le_fst (w m k : ℕ) (h : m < k) : (bandRange w m).2 ≤ (bandRange w k).1 := by
  unfold bandRange
  simp only []
  have : ⌊(w : ℚ) / (THREAD_COUNT : ℚ) * ((m : ℚ) + 1)⌋ ≤
      ⌊(w : ℚ) / (THREAD_COUNT : ℚ) * (k : ℚ)⌋ := by
    apply Int.floor_mono
    apply mul_le_mul_of_nonneg_left _ (by positivity)
    have : m + 1 ≤ k := h
    exact_mod_cast this
  omega


theorem forEach_done {α σ : Type} (l : List α) (body : α → σ → Run σ)
    (h : ∀ a ∈ l, ∀ s, body a s = done s) (s : σ) : forEach l body s = done s := by
  induction l generalizing s with
  | nil => rfl
  | cons a rest ih =>
    unfold forEach
    rw [h a (List.mem_cons_self _ _) s]
    exact ih (fun b hb => h b (List.mem_cons_of_mem _ hb)) s

/-- The task of the band that holds every occupied cell does what the sequential sweep
over the full column range does. -/
theorem handleCollisions_band_eq (len : Vec2 → ℚ) (W H : ℕ) (g : CollisionGrid) (k : ℕ)
    (hocc : ∀ i j : ℤ, (g.getCell i j).count ≠ 0 →
      (bandRange g.width k).1 ≤ i ∧ i < (bandRange g.width k).2)
    (s : List PhysicsObject) :
    handleCollisions len W H g (bandRange g.width k).1 (bandRange g.width k).2 s =
      handleCollisions len W H g 1 (-1) s := by
  unfold handleCollisions
  simp only []
  apply forEach_congr
  intro j _ s1
  apply sweepRow_eq
  intro x hx
  obtain ⟨h1, h2⟩ := hocc x j hx
  have hlo := bandRange_fst_pos g.width k
  have hhi := bandRange_snd_pos g.width k
  rw [mem_intRange, mem_intRange]
  simp only [true_or, if_true]
  split_ifs with hc
  · constructor <;> rintro ⟨h3, h4⟩ <;> constructor <;> omega
  · have hc1 : (bandRange g.width k).2 < (g.width : ℤ) := by
      by_contra hge
      exact hc (Or.inr (not_lt.mp hge))
    constructor <;> rintro ⟨h3, h4⟩ <;> constructor <;> omega

/-- The task of any other band finds every cell of its columns empty and does nothing. -/
theorem handleCollisions_band_idle (len : Vec2 → ℚ) (W H : ℕ) (g : CollisionGrid) (k m : ℕ)
    (hmk : m ≠ k)
    (hocc : ∀ i j : ℤ, (g.getCell i j).count ≠ 0 →
      (bandRange g.width k).1 ≤ i ∧ i < (bandRange g.width k).2)
    (s : List PhysicsObject) :
    handleCollisions len W H g (bandRange g.width m).1 (bandRange g.width m).2 s = done s := by
  unfold handleCollisions
  simp only []
  apply forEach_done
  intro j _ s1
  apply forEach_done
  intro x hx s2
  apply visitCell_empty
  intro hne
  obtain ⟨h1, h2⟩ := hocc x j hne
  rw [mem_intRange] at hx
  obtain ⟨h3, h4⟩ := hx
  have hhi := bandRange_snd_pos g.width m
  have h5 : x < (bandRange g.width m).2 := by
    split_ifs at h4 with hc
    · rcases hc with hc | hc
      · omega
      · omega
    · exact h4
  rcases Nat.lt_or_gt_of_ne hmk with hlt | hgt
  · have := bandRange_snd_le_fst g.width m k hlt
    omega
  · have := bandRange_snd_le_fst g.width k m hgt
    omega

/-- C10, as stated, fails already when the pool runs the four tasks one after the other
in the order they were handed in.  In the 8 by 8 grid of a 40 by 40 simulation band 0
is the columns 1 and 2 and band 1 the columns 3 and 4.  The sequential sweep goes row by
row: it visits cell (3,2) while its body at (16,9) overlaps nothing, then cell (2,3),
whose bodies at (10,19) and (10,16) are pushed to (10,43/2) and (10,27/2).  The band
tasks go band by band: cell (2,3) is visited first, and cell (3,2) afterwards, when its
body is 15/2 < 8 away from the body now at (10,27/2), so this pair is pushed apart as
well.  The lengths taken of overlapping pairs, of (0,3) and of (6,-9/2), are rational.
All three bodies are touched by both bands, and the run is the interleaving with the
schedule 0, 0, 0, 0, 1, 1 of the four calls of task 0 and the two calls of task 1. -/
theorem C10_counterexample :
    ExactAt sqrtLength ⟨0, 3⟩ ∧ ExactAt sqrtLength ⟨6, -9 / 2⟩ ∧
    handleCollisions sqrtLength 40 40 (rebuildGrid smallGrid bandWorld).state 1 (-1)
        bandWorld =
      done [PhysicsObject.new ⟨10, 43 / 2⟩ 4 ⟨0, 0⟩, PhysicsObject.new ⟨16, 9⟩ 4 ⟨0, 0⟩,
        PhysicsObject.new ⟨10, 27 / 2⟩ 4 ⟨0, 0⟩] ∧
    handleCollisionsThreaded sqrtLength 40 40 (rebuildGrid smallGrid bandWorld).state
        [0, 1, 2, 3] bandWorld =
      done [PhysicsObject.new ⟨10, 43 / 2⟩ 4 ⟨0, 0⟩,
        PhysicsObject.new ⟨81 / 5, 177 / 20⟩ 4 ⟨0, 0⟩,
        PhysicsObject.new ⟨49 / 5, 273 / 20⟩ 4 ⟨0, 0⟩] ∧
    handleCollisionsThreaded sqrtLength 40 40 (rebuildGrid smallGrid bandWorld).state
        [0, 1, 2, 3] bandWorld ≠
      handleCollisions sqrtLength 40 40 (rebuildGrid smallGrid bandWorld).state 1 (-1)
        bandWorld ∧
    (List.range THREAD_COUNT).map (bandCalls (rebuildGrid smallGrid bandWorld).state) =
      [[(0, 1), (2, 1), (0, 2), (2, 0)], [(1, 0), (1, 2)], [], []] ∧
    ¬ BandsShareNoBody (rebuildGrid smallGrid bandWorld).state ∧
    RunsAllTasks (rebuildGrid smallGrid bandWorld).state [0, 0, 0, 0, 1, 1] ∧
    handleCollisionsConcurrent sqrtLength 40 40 (rebuildGrid smallGrid bandWorld).state
        [0, 0, 0, 0, 1, 1] bandWorld =
      handleCollisionsThreaded sqrtLength 40 40 (rebuildGrid smallGrid bandWorld).state
        [0, 1, 2, 3] bandWorld ∧
    (handleCollisionsConcurrent sqrtLength 40 40 (rebuildGrid smallGrid bandWorld).state
        [0, 0, 0, 0, 1, 1] bandWorld).result ≠
      (handleCollisions sqrtLength 40 40 (rebuildGrid smallGrid bandWorld).state 1 (-1)
        bandWorld).result := by
  unfold ExactAt
  refine ⟨?_, ?_, ?_, ?_, ?_, ?_, ?_, ?_, ?_, ?_⟩ <;> decide!

/-- When the occupied cells all lie in the columns of one band, the four band tasks of
`handleCollisionsThreaded`, run to their end one after the other in any order, are the
same run as the sequential sweep `handleCollisions` over the full column range, also
where it stops. -/
theorem handleCollisionsThreaded_one_band (len : Vec2 → ℚ) (W H : ℕ) (g : CollisionGrid) (k : ℕ)
    (order : List ℕ) (objects : List PhysicsObject)
    (horder : order.Perm (List.range THREAD_COUNT)) (hk : k < THREAD_COUNT)
    (hocc : ∀ i j : ℤ, (g.getCell i j).count ≠ 0 →
      (bandRange g.width k).1 ≤ i ∧ i < (bandRange g.width k).2) :
    handleCollisionsThreaded len W H g order objects =
      handleCollisions len W H g 1 (-1) objects := by
  have hnodup : order.Nodup := horder.nodup_iff.mpr (List.nodup_range _)
  have hmem : k ∈ order := horder.mem_iff.mpr (List.mem_range.mpr hk)
  have hfilter : order.filter (fun m => m = k) = [k] := by
    rw [List.filter_eq, List.count_eq_one_of_mem hnodup hmem]
    rfl
  unfold handleCollisionsThreaded
  rw [forEach_filter (fun m => m = k) order _
    (fun m _ hm s => handleCollisions_band_idle len W H g k m hm hocc s), hfilter]
  show (handleCollisions len W H g (bandRange g.width k).1 (bandRange g.width k).2
    objects).andThen done = _
  rw [andThen_done, handleCollisions_band_eq len W H g k hocc]


theorem getCell_count_outside (g : CollisionGrid) (x y : ℤ)
    (h : ¬ (0 ≤ x ∧ x < g.width ∧ 0 ≤ y ∧ y < g.height)) :
    (g.getCell x y).count = 0 := by
  simp [CollisionGrid.getCell, h, CollisionNode.empty, CollisionNode.count]

theorem oneBandWorld_occupied (i j : ℤ)
    (h : ((rebuildGrid smallGrid oneBandWorld).state.getCell i j).count ≠ 0) :
    (bandRange (rebuildGrid smallGrid oneBandWorld).state.width 1).1 ≤ i ∧
      i < (bandRange (rebuildGrid smallGrid oneBandWorld).state.width 1).2 := by
  have hb1 : (bandRange (rebuildGrid smallGrid oneBandWorld).state.width 1).1 = 3 := by decide!
  have hb2 : (bandRange (rebuildGrid smallGrid oneBandWorld).state.width 1).2 = 5 := by decide!
  rw [hb1, hb2]
  by_cases hin : 0 ≤ i ∧ i < (rebuildGrid smallGrid oneBandWorld).state.width ∧ 0 ≤ j ∧
      j < (rebuildGrid smallGrid oneBandWorld).state.height
  · have hw : (rebuildGrid smallGrid oneBandWorld).state.width = 8 := by decide!
    have hh : (rebuildGrid smallGrid oneBandWorld).state.height = 8 := by decide!
    rw [hw, hh] at hin
    obtain ⟨h1, h2, h3, h4⟩ := hin
    have h2 : i < 8 := by exact_mod_cast h2
    have h4 : j < 8 := by exact_mod_cast h4
    revert h
    interval_cases i <;> interval_cases j <;> decide!
  · exact absurd (getCell_count_outside _ _ _ hin) h

/-- Three bodies whose cells all lie in band 1, the tasks run in the order 2, 0, 3, 1. -/
theorem handleCollisionsThreaded_one_band_example :
    handleCollisionsThreaded sqrtLength 40 40 (rebuildGrid smallGrid oneBandWorld).state
        [2, 0, 3, 1] oneBandWorld =
      handleCollisions sqrtLength 40 40 (rebuildGrid smallGrid oneBandWorld).state 1 (-1)
        oneBandWorld :=
  handleCollisionsThreaded_one_band sqrtLength 40 40
    (rebuildGrid smallGrid oneBandWorld).state 1 [2, 0, 3, 1] oneBandWorld (by decide!) (by decide) oneBandWorld_occupied

/-! ## Integration -/

theorem enforceBoundaries_acceleration (o : PhysicsObject) (w h : ℕ) :
    (o.enforceBoundaries w h).acceleration = o.acceleration := by
  unfold enforceBoundaries
  simp only []
  split_ifs <;> rfl

/-- With room for the body on both axes, `enforceBoundaries` puts the body inside the
walls. -/
theorem enforceBoundaries_inBounds_of_room (o : PhysicsObject) (w h : ℕ)
    (hw : 2 * (o.radius + IMGUI_FRAME_MARGIN) ≤ w)
    (hh : 2 * (o.radius + IMGUI_FRAME_MARGIN) ≤ h) :
    (o.enforceBoundaries w h).InBounds w h := by
  unfold InBounds
  rw [enforceBoundaries_position_x, enforceBoundaries_position_y, enforceBoundaries_radius]
  exact ⟨clampAxis_ge _ _ _, clampAxis_le _ _ _ (by linarith), clampAxis_ge _ _ _,
    clampAxis_le _ _ _ (by linarith)⟩

/-- The body `update` hands to `enforceBoundaries`. -/
theorem update_eq (len : Vec2 → ℚ) (o : PhysicsObject) (dt : ℚ) (W H : ℕ) :
    PhysicsObject.update len o dt W H =
      PhysicsObject.enforceBoundaries
        { position :=
            Vec2.add o.position (Vec2.smul dt (Vec2.add o.velocity (Vec2.smul dt o.acceleration))),
          velocity :=
            if EPSILON ≤ len (Vec2.add o.velocity (Vec2.smul dt o.acceleration)) then
              Vec2.add o.velocity (Vec2.smul dt o.acceleration)
            else ⟨0, 0⟩,
          acceleration := ⟨0, 0⟩, radius := o.radius, mass := o.mass } W H := by
  unfold PhysicsObject.update
  simp only []
  by_cases h : len (Vec2.add o.velocity (Vec2.smul dt o.acceleration)) < EPSILON
  · simp only [h, if_true, not_le.mpr h, if_false]
  · simp only [h, if_false, not_lt.mp h, if_true]

theorem update_radius (len : Vec2 → ℚ) (o : PhysicsObject) (dt : ℚ) (W H : ℕ) :
    (PhysicsObject.update len o dt W H).radius = o.radius := by
  rw [update_eq, enforceBoundaries_radius]

theorem update_mass (len : Vec2 → ℚ) (o : PhysicsObject) (dt : ℚ) (W H : ℕ) :
    (PhysicsObject.update len o dt W H).mass = o.mass := by
  rw [update_eq, enforceBoundaries_mass]

/-- C16: `PhysicsObject::update(dt, W, H)` on a body with position `p`, velocity `v` and
acceleration `a` is `enforceBoundaries(W, H)` applied to the body with position
`p + (v + a * dt) * dt`, with velocity `v + a * dt` when the length of that vector is at
least `EPSILON` and the zero vector otherwise, and with acceleration zero; the
acceleration of the result is zero. -/
theorem C16_update (len : Vec2 → ℚ) (o : PhysicsObject) (dt : ℚ) (W H : ℕ) :
    PhysicsObject.update len o dt W H =
      PhysicsObject.enforceBoundaries
        { position :=
            Vec2.add o.position (Vec2.smul dt (Vec2.add o.velocity (Vec2.smul dt o.acceleration))),
          velocity :=
            if EPSILON ≤ len (Vec2.add o.velocity (Vec2.smul dt o.acceleration)) then
              Vec2.add o.velocity (Vec2.smul dt o.acceleration)
            else ⟨0, 0⟩,
          acceleration := ⟨0, 0⟩, radius := o.radius, mass := o.mass } W H ∧
    (PhysicsObject.update len o dt W H).acceleration = ⟨0, 0⟩ := by
  refine ⟨update_eq len o dt W H, ?_⟩
  rw [update_eq, enforceBoundaries_acceleration]

/-- C19: when `width ≥ 2 * (radius + IMGUI_FRAME_MARGIN)` and
`height ≥ 2 * (radius + IMGUI_FRAME_MARGIN)`, a second `enforceBoundaries` changes
nothing, position and velocity included; in particular the call that
`PhysicsController::update` makes right after `PhysicsObject::update` leaves the body
as `update` returned it. -/
theorem C19_enforceBoundaries_idempotent (len : Vec2 → ℚ) (o : PhysicsObject) (W H : ℕ)
    (dt : ℚ)
    (hw : 2 * (o.radius + IMGUI_FRAME_MARGIN) ≤ W)
    (hh : 2 * (o.radius + IMGUI_FRAME_MARGIN) ≤ H) :
    (o.enforceBoundaries W H).enforceBoundaries W H = o.enforceBoundaries W H ∧
    (PhysicsObject.update len o dt W H).enforceBoundaries W H =
      PhysicsObject.update len o dt W H := by
  constructor
  · exact enforceBoundaries_of_inBounds _ W H (enforceBoundaries_inBounds_of_room o W H hw hh)
  · rw [update_eq]
    exact enforceBoundaries_of_inBounds _ W H
      (enforceBoundaries_inBounds_of_room _ W H hw hh)

/-- C19 at a body of radius 4 falling out of the lower right corner of an 800 by 600
simulation. -/
theorem C19_enforceBoundaries_idempotent_witness :
    ((PhysicsObject.new ⟨900, 700⟩ 4 ⟨3, 2⟩).enforceBoundaries 800 600).enforceBoundaries
        800 600 =
      (PhysicsObject.new ⟨900, 700⟩ 4 ⟨3, 2⟩).enforceBoundaries 800 600 ∧
    (PhysicsObject.update axisLength (PhysicsObject.new ⟨900, 700⟩ 4 ⟨3, 2⟩) (1 / 60) 800
        600).enforceBoundaries 800 600 =
      PhysicsObject.update axisLength (PhysicsObject.new ⟨900, 700⟩ 4 ⟨3, 2⟩) (1 / 60) 800
        600 :=
  C19_enforceBoundaries_idempotent axisLength (PhysicsObject.new ⟨900, 700⟩ 4 ⟨3, 2⟩) 800 600
    (1 / 60) (by decide!) (by decide!)

/-! ## Radius and mass -/

/-- Whenever `collisionResponse` has a result, the radii and masses are those of the
arguments. -/
theorem collisionResponse_radius_mass (len : Vec2 → ℚ) (o1 o2 : PhysicsObject)
    (dist minDist : ℚ) (r : PhysicsObject × PhysicsObject)
    (h : collisionResponse len o1 o2 dist minDist = some r) :
    (r.1.radius = o1.radius ∧ r.1.mass = o1.mass) ∧
      (r.2.radius = o2.radius ∧ r.2.mass = o2.mass) := by
  unfold collisionResponse at h
  simp only [Option.bind_eq_some] at h
  obtain ⟨_, _, _, _, _, _, _, _, _, _, _, _, _, _, h⟩ := h
  simp only [Option.some.injEq] at h
  subst h
  exact ⟨⟨rfl, rfl⟩, ⟨rfl, rfl⟩⟩

/-- Whenever `checkCollision` has a result, the radii and masses are those of the
arguments. -/
theorem checkCollision_radius_mass (len : Vec2 → ℚ) (W H : ℕ) (o1 o2 : PhysicsObject)
    (r : PhysicsObject × PhysicsObject) (h : checkCollision len W H o1 o2 = some r) :
    (r.1.radius = o1.radius ∧ r.1.mass = o1.mass) ∧
      (r.2.radius = o2.radius ∧ r.2.mass = o2.mass) := by
  unfold checkCollision at h
  simp only [] at h
  split_ifs at h with hlt
  · simp only [Option.bind_eq_some] at h
    obtain ⟨r0, hr0, h⟩ := h
    simp only [Option.some.injEq] at h
    subst h
    have := collisionResponse_radius_mass len o1 o2 _ _ r0 hr0
    simp only [enforceBoundaries_radius, enforceBoundaries_mass]
    exact this
  · simp only [Option.some.injEq] at h
    subst h
    exact ⟨⟨rfl, rfl⟩, ⟨rfl, rfl⟩⟩

theorem map_set_same {α β : Type} (f : α → β) (l : List α) (i : ℕ) (x o : α)
    (h : l[i]? = some o) (hf : f x = f o) : (l.set i x).map f = l.map f := by
  apply List.ext_getElem?
  intro n
  by_cases hn : i = n
  · subst hn
    have hi : i < l.length := by
      by_contra hge
      rw [List.getElem?_eq_none (not_lt.mp hge)] at h
      cases h
    rw [List.getElem?_map, List.getElem?_map, List.getElem?_set_self hi, h]
    simp [hf]
  · simp [List.getElem?_map, List.getElem?_set_ne hn]

theorem map_modify_same {α β : Type} (f : α → β) (g : α → α) (hg : ∀ a, f (g a) = f a)
    (l : List α) (i : ℕ) : (l.modify g i).map f = l.map f := by
  induction l generalizing i with
  | nil => simp
  | cons a rest ih =>
    cases i with
    | zero => simp [hg]
    | succ n =>
      rw [List.modify_succ_cons, List.map_cons, List.map_cons, ih n]

/-- `checkCollision` on two pointers keeps the radius and mass of every body, whether it
runs to its end or stops. -/
theorem checkCollisionAt_radius_mass (len : Vec2 → ℚ) (W H : ℕ) (obj1 obj2 : ℕ)
    (objects : List PhysicsObject) :
    ((checkCollisionAt len W H obj1 obj2 objects).state.map fun o => (o.radius, o.mass)) =
      objects.map fun o => (o.radius, o.mass) := by
  unfold checkCollisionAt
  split
  · rename_i o1 o2 h1 h2
    split
    · rename_i r hr
      obtain ⟨⟨a1, a2⟩, ⟨b1, b2⟩⟩ := checkCollision_radius_mass len W H o1 o2 r hr
      simp only [Run.state]
      have hfirst : ((objects.set obj1 r.1).map fun o => (o.radius, o.mass)) =
          objects.map fun o => (o.radius, o.mass) :=
        map_set_same _ objects obj1 r.1 o1 h1 (by simp [a1, a2])
      by_cases hsame : obj1 = obj2
      · subst hsame
        have h12 : o1 = o2 := by
          rw [h1] at h2
          exact Option.some.inj h2
        subst h12
        have hlen : obj1 < objects.length := by
          by_contra hge
          rw [List.getElem?_eq_none (not_lt.mp hge)] at h1
          cases h1
        have hget : (objects.set obj1 r.1)[obj1]? = some r.1 := by
          simp [List.getElem?_set_self, hlen]
        rw [map_set_same _ (objects.set obj1 r.1) obj1 r.2 r.1 hget (by simp [a1, a2, b1, b2]),
          hfirst]
      · have hget : (objects.set obj1 r.1)[obj2]? = some o2 := by
          rw [List.getElem?_set_ne hsame]
          exact h2
        rw [map_set_same _ (objects.set obj1 r.1) obj2 r.2 o2 hget (by simp [b1, b2]), hfirst]
    · rfl
  · rfl

/-- Every `BodyOp` keeps the radius and mass of every body. -/
theorem BodyOp.run_radius_mass (len : Vec2 → ℚ) (op : BodyOp) (objects : List PhysicsObject) :
    ((op.run len objects).state.map fun o => (o.radius, o.mass)) =
      objects.map fun o => (o.radius, o.mass) := by
  cases op with
  | accelerate obj acc =>
    exact map_modify_same (fun o : PhysicsObject => (o.radius, o.mass))
      (fun o => o.accelerate acc) (fun a => rfl) objects obj
  | update obj dt W H =>
    exact map_modify_same (fun o : PhysicsObject => (o.radius, o.mass))
      (fun o => PhysicsObject.update len o dt W H)
      (fun a => by simp [update_radius, update_mass]) objects obj
  | enforceBoundaries obj W H =>
    exact map_modify_same (fun o : PhysicsObject => (o.radius, o.mass))
      (fun o => o.enforceBoundaries W H)
      (fun a => by simp [enforceBoundaries_radius, enforceBoundaries_mass]) objects obj
  | checkCollision obj1 obj2 W H =>
    exact checkCollisionAt_radius_mass len W H obj1 obj2 objects

/-- Any sequence of `BodyOp`s keeps the radius and mass of every body. -/
theorem forEach_run_radius_mass (len : Vec2 → ℚ) (ops : List BodyOp)
    (objects : List PhysicsObject) :
    ((forEach ops (BodyOp.run len) objects).state.map fun o => (o.radius, o.mass)) =
      objects.map fun o => (o.radius, o.mass) :=
  forEach_preserves
    (fun s => (s.map fun o => (o.radius, o.mass)) = objects.map fun o => (o.radius, o.mass))
    ops (BodyOp.run len)
    (fun op _ s hs => (BodyOp.run_radius_mass len op s).trans hs) objects rfl

/-- C13: a body constructed with radius `r > 0` has radius `r` and
`mass = r * r * DENSITY > 0`; `accelerate`, `update`, `enforceBoundaries` and
`checkCollision` leave the radius and mass of the bodies they touch unchanged; and after
any sequence of these operations on a list of bodies the radii and masses are the same,
so they are still positive when they were positive before. -/
theorem C13_radius_mass_invariant (len : Vec2 → ℚ) :
    (∀ (pos v : Vec2) (r : ℚ), 0 < r →
      (PhysicsObject.new pos r v).radius = r ∧
        (PhysicsObject.new pos r v).mass = r * r * DENSITY ∧
        0 < (PhysicsObject.new pos r v).mass) ∧
    (∀ (o : PhysicsObject) (acc : Vec2),
      (o.accelerate acc).radius = o.radius ∧ (o.accelerate acc).mass = o.mass) ∧
    (∀ (o : PhysicsObject) (dt : ℚ) (W H : ℕ),
      (PhysicsObject.update len o dt W H).radius = o.radius ∧
        (PhysicsObject.update len o dt W H).mass = o.mass) ∧
    (∀ (o : PhysicsObject) (W H : ℕ),
      (o.enforceBoundaries W H).radius = o.radius ∧ (o.enforceBoundaries W H).mass = o.mass) ∧
    (∀ (W H : ℕ) (o1 o2 : PhysicsObject) (r : PhysicsObject × PhysicsObject),
      checkCollision len W H o1 o2 = some r →
        (r.1.radius = o1.radius ∧ r.1.mass = o1.mass) ∧
          (r.2.radius = o2.radius ∧ r.2.mass = o2.mass)) ∧
    (∀ (ops : List BodyOp) (objects : List PhysicsObject),
      ((forEach ops (BodyOp.run len) objects).state.map fun o => (o.radius, o.mass)) =
          objects.map fun o => (o.radius, o.mass)) ∧
    (∀ (ops : List BodyOp) (objects : List PhysicsObject),
      (∀ o ∈ objects, 0 < o.radius ∧ 0 < o.mass) →
        ∀ o ∈ (forEach ops (BodyOp.run len) objects).state, 0 < o.radius ∧ 0 < o.mass) := by
  refine ⟨?_, ?_, ?_, ?_, ?_, ?_, ?_⟩
  · intro pos v r hr
    refine ⟨rfl, rfl, ?_⟩
    show 0 < r * r * DENSITY
    unfold DENSITY
    positivity
  · intro o acc
    exact ⟨rfl, rfl⟩
  · intro o dt W H
    exact ⟨update_radius len o dt W H, update_mass len o dt W H⟩
  · intro o W H
    exact ⟨enforceBoundaries_radius o W H, enforceBoundaries_mass o W H⟩
  · intro W H o1 o2 r h
    exact checkCollision_radius_mass len W H o1 o2 r h
  · intro ops objects
    exact forEach_run_radius_mass len ops objects
  · intro ops objects hpos o ho
    have hmap := forEach_run_radius_mass len ops objects
    have hmem : (o.radius, o.mass) ∈
        (forEach ops (BodyOp.run len) objects).state.map fun o => (o.radius, o.mass) :=
      List.mem_map_of_mem _ ho
    rw [hmap, List.mem_map] at hmem
    obtain ⟨o1, ho1, heq⟩ := hmem
    simp only [Prod.mk.injEq] at heq
    have := hpos o1 ho1
    rw [← heq.1, ← heq.2]
    exact this

/-! ## Collision response: positions and relative velocity -/

theorem checkCollisionAt_length (len : Vec2 → ℚ) (W H : ℕ) (obj1 obj2 : ℕ)
    (objects : List PhysicsObject) :
    (checkCollisionAt len W H obj1 obj2 objects).state.length = objects.length := by
  unfold checkCollisionAt
  split
  · split
    · simp [Run.state]
    · rfl
  · rfl

theorem checkCellCollisions_length (len : Vec2 → ℚ) (W H : ℕ) (cell1 cell2 : CollisionNode)
    (objects : List PhysicsObject) (n : ℕ) (hn : objects.length = n) :
    (checkCellCollisions len W H cell1 cell2 objects).state.length = n := by
  unfold checkCellCollisions
  apply forEach_preserves (fun s : List PhysicsObject => s.length = n) _ _ _ _ hn
  intro a _ s hs
  apply forEach_preserves (fun s : List PhysicsObject => s.length = n) _ _ _ _ hs
  intro b _ s1 hs1
  split_ifs
  · rw [checkCollisionAt_length]
    exact hs1
  · exact hs1

theorem visitCell_length (len : Vec2 → ℚ) (W H : ℕ) (g : CollisionGrid) (i j : ℤ)
    (objects : List PhysicsObject) (n : ℕ) (hn : objects.length = n) :
    (visitCell len W H g i j objects).state.length = n := by
  unfold visitCell
  simp only []
  split_ifs
  · exact hn
  · apply forEach_preserves (fun s : List PhysicsObject => s.length = n) _ _ _ _ hn
    intro dj _ s hs
    apply forEach_preserves (fun s : List PhysicsObject => s.length = n) _ _ _ _ hs
    intro di _ s1 hs1
    split_ifs
    · exact hs1
    · exact checkCellCollisions_length len W H _ _ s1 n hs1

/-- A sweep neither adds nor removes a body. -/
theorem handleCollisions_length (len : Vec2 → ℚ) (W H : ℕ) (g : CollisionGrid)
    (widthLow widthHigh : ℤ) (objects : List PhysicsObject) (n : ℕ)
    (hn : objects.length = n) :
    (Atomos.handleCollisions len W H g widthLow widthHigh objects).state.length = n := by
  unfold Atomos.handleCollisions
  simp only []
  apply forEach_preserves (fun s : List PhysicsObject => s.length = n) _ _ _ _ hn
  intro j _ s hs
  apply forEach_preserves (fun s : List PhysicsObject => s.length = n) _ _ _ _ hs
  intro i _ s1 hs1
  exact visitCell_length len W H g i j s1 n hs1

theorem handleCollisionsThreaded_length (len : Vec2 → ℚ) (W H : ℕ) (g : CollisionGrid)
    (order : List ℕ) (objects : List PhysicsObject) :
    (handleCollisionsThreaded len W H g order objects).state.length = objects.length := by
  unfold handleCollisionsThreaded
  apply forEach_preserves (fun s : List PhysicsObject => s.length = objects.length) _ _ _ _ rfl
  intro i _ s hs
  exact handleCollisions_length len W H g _ _ s _ hs

/-- One collision pass of the controller keeps the number of bodies, the spawners and
the simulation extent. -/
theorem PhysicsController.collisionPass_frame (len : Vec2 → ℚ) (order : List ℕ)
    (c : PhysicsController) :
    (c.handleCollisions len order).state.objects.length = c.objects.length ∧
    (c.handleCollisions len order).state.spawners = c.spawners := by
  unfold PhysicsController.handleCollisions
  cases rebuildGrid c.grid c.objects with
  | done g =>
    simp only []
    have hlen := handleCollisionsThreaded_length len c.simulationWidth c.simulationHeight g
      order c.objects
    cases hrun : handleCollisionsThreaded len c.simulationWidth c.simulationHeight g order
        c.objects with
    | done objs =>
      rw [hrun] at hlen
      exact ⟨hlen, rfl⟩
    | stopped f objs =>
      rw [hrun] at hlen
      exact ⟨hlen, rfl⟩
  | stopped f g => exact ⟨rfl, rfl⟩

theorem PhysicsController.handleCollisionsIterations_frame (len : Vec2 → ℚ)
    (pool : ℕ → List ℕ) (iterations : ℕ) (c : PhysicsController) :
    (c.handleCollisionsIterations len pool iterations).state.objects.length =
      c.objects.length ∧
    (c.handleCollisionsIterations len pool iterations).state.spawners = c.spawners := by
  unfold PhysicsController.handleCollisionsIterations
  apply forEach_preserves
    (fun s : PhysicsController => s.objects.length = c.objects.length ∧ s.spawners = c.spawners)
    _ _ _ _ ⟨rfl, rfl⟩
  intro i _ s hs
  obtain ⟨h1, h2⟩ := PhysicsController.collisionPass_frame len (pool i) s
  exact ⟨h1.trans hs.1, h2.trans hs.2⟩

/-- A spawner shoots at most one body per tick. -/
theorem ObjectSpawner.update_length (s : ObjectSpawner) (dt : ℚ)
    (objects : List PhysicsObject) :
    objects.length ≤ (s.update dt objects).2.length ∧
      (s.update dt objects).2.length ≤ objects.length + 1 := by
  unfold ObjectSpawner.update
  simp only []
  split_ifs <;> simp [ObjectSpawner.shoot]

/-- A spawner that is switched off does nothing when ticked. -/
theorem ObjectSpawner.update_stopped (s : ObjectSpawner) (dt : ℚ)
    (objects : List PhysicsObject) (h : s.keepShooting = false) :
    s.update dt objects = (s, objects) := by
  simp [ObjectSpawner.update, h]

theorem PhysicsController.tickSpawners_length (dt : ℚ) (spawners : List ObjectSpawner)
    (objects : List PhysicsObject) :
    (PhysicsController.tickSpawners dt spawners objects).1.length = spawners.length ∧
    objects.length ≤ (PhysicsController.tickSpawners dt spawners objects).2.length ∧
    (PhysicsController.tickSpawners dt spawners objects).2.length ≤
      objects.length + spawners.length := by
  induction spawners generalizing objects with
  | nil => simp [PhysicsController.tickSpawners]
  | cons s rest ih =>
    obtain ⟨h1, h2, h3⟩ := ih (s.update dt objects).2
    obtain ⟨h4, h5⟩ := ObjectSpawner.update_length s dt objects
    simp only [PhysicsController.tickSpawners, List.length_cons]
    refine ⟨by omega, by omega, by omega⟩

theorem PhysicsController.tickSpawners_stopped (dt : ℚ) (spawners : List ObjectSpawner)
    (objects : List PhysicsObject) (h : ∀ s ∈ spawners, s.keepShooting = false) :
    PhysicsController.tickSpawners dt spawners objects = (spawners, objects) := by
  induction spawners generalizing objects with
  | nil => rfl
  | cons s rest ih =>
    simp only [PhysicsController.tickSpawners]
    rw [ObjectSpawner.update_stopped s dt objects (h s (List.mem_cons_self _ _)),
      ih objects (fun s1 hs1 => h s1 (List.mem_cons_of_mem _ hs1))]

/-- An update at the cap: the spawners are switched off, their timers are untouched and
no body is added. -/
theorem PhysicsController.update_at_cap (len : Vec2 → ℚ) (pool : ℕ → List ℕ) (dt : ℚ)
    (c : PhysicsController) (h : MAX_OBJECTS ≤ c.objects.length) :
    (c.update len pool dt).state.objects.length = c.objects.length ∧
    (c.update len pool dt).state.spawners = c.spawners.map ObjectSpawner.stop := by
  unfold PhysicsController.update
  have hge : c.objects.length ≥ MAX_OBJECTS := h
  simp only [hge, if_true]
  have hstop : ∀ s ∈ (c.stopSpawners).spawners, s.keepShooting = false := by
    intro s hs
    simp only [PhysicsController.stopSpawners, List.mem_map] at hs
    obtain ⟨s0, _, rfl⟩ := hs
    rfl
  rw [PhysicsController.tickSpawners_stopped _ _ _ hstop]
  obtain ⟨h1, h2⟩ := PhysicsController.handleCollisionsIterations_frame len pool
    COLLISION_ITERATIONS
    { c.stopSpawners with
      spawners := c.stopSpawners.spawners,
      objects := (c.stopSpawners.objects).map
        (PhysicsController.stepObject len (min dt MAX_TIME_STEP)
          c.stopSpawners.simulationWidth c.stopSpawners.simulationHeight) }
  constructor
  · rw [h1]
    simp [PhysicsController.stopSpawners]
  · rw [h2]
    rfl

/-- An update below the cap adds at most one body per spawner. -/
theorem PhysicsController.update_count (len : Vec2 → ℚ) (pool : ℕ → List ℕ) (dt : ℚ)
    (c : PhysicsController) :
    (c.update len pool dt).state.spawners.length = c.spawners.length ∧
    c.objects.length ≤ (c.update len pool dt).state.objects.length ∧
    (c.update len pool dt).state.objects.length ≤
      (if MAX_OBJECTS ≤ c.objects.length then c.objects.length
       else c.objects.length + c.spawners.length) := by
  by_cases h : MAX_OBJECTS ≤ c.objects.length
  · obtain ⟨h1, h2⟩ := PhysicsController.update_at_cap len pool dt c h
    simp only [h, if_true]
    rw [h1, h2]
    simp
  · simp only [h, if_false]
    unfold PhysicsController.update
    have hge : ¬ c.objects.length ≥ MAX_OBJECTS := h
    simp only [hge, if_false]
    obtain ⟨t1, t2, t3⟩ := PhysicsController.tickSpawners_length (min dt MAX_TIME_STEP)
      c.spawners c.objects
    obtain ⟨h1, h2⟩ := PhysicsController.handleCollisionsIterations_frame len pool
      COLLISION_ITERATIONS
      { c with
        spawners := (PhysicsController.tickSpawners (min dt MAX_TIME_STEP) c.spawners
          c.objects).1,
        objects := ((PhysicsController.tickSpawners (min dt MAX_TIME_STEP) c.spawners
          c.objects).2).map
            (PhysicsController.stepObject len (min dt MAX_TIME_STEP) c.simulationWidth
              c.simulationHeight) }
    simp only [List.length_map] at h1
    rw [h1, h2]
    exact ⟨t1, t2, t3⟩

/-- C13 at a body of radius 4, at the overlapping pair `midLeft`, `midRight`, and at a
sequence of four operations on the bodies of `smallWorld`. -/
theorem C13_radius_mass_invariant_witness :
    ((PhysicsObject.new ⟨1, 2⟩ 4 ⟨0, 0⟩).radius = 4 ∧
      (PhysicsObject.new ⟨1, 2⟩ 4 ⟨0, 0⟩).mass = 4 * 4 * DENSITY ∧
      0 < (PhysicsObject.new ⟨1, 2⟩ 4 ⟨0, 0⟩).mass) ∧
    ((({ midLeft with position := ⟨35 / 2, 20⟩, velocity := ⟨2 / 5, 0⟩ } :
          PhysicsObject).radius = midLeft.radius ∧
        ({ midLeft with position := ⟨35 / 2, 20⟩, velocity := ⟨2 / 5, 0⟩ } :
          PhysicsObject).mass = midLeft.mass) ∧
      (({ midRight with position := ⟨51 / 2, 20⟩, velocity := ⟨3 / 5, 0⟩ } :
          PhysicsObject).radius = midRight.radius ∧
        ({ midRight with position := ⟨51 / 2, 20⟩, velocity := ⟨3 / 5, 0⟩ } :
          PhysicsObject).mass = midRight.mass)) ∧
    ∀ o ∈ (forEach sampleOps (BodyOp.run axisLength) smallWorld).state,
      0 < o.radius ∧ 0 < o.mass :=
  ⟨(C13_radius_mass_invariant axisLength).1 ⟨1, 2⟩ ⟨0, 0⟩ 4 (by norm_num),
   (C13_radius_mass_invariant axisLength).2.2.2.2.1 800 600 midLeft midRight
      ({ midLeft with position := ⟨35 / 2, 20⟩, velocity := ⟨2 / 5, 0⟩ },
       { midRight with position := ⟨51 / 2, 20⟩, velocity := ⟨3 / 5, 0⟩ }) (by decide!),
   (C13_radius_mass_invariant axisLength).2.2.2.2.2.2 sampleOps smallWorld (by decide!)⟩

/-- C11: when `PhysicsController::update` is called while the body count is at least
`MAX_OBJECTS`, the body count after the call is the count before it, and the spawners
after the call are the spawners before it with `keepShooting` switched off and nothing
else changed: the ticks found every spawner stopped. -/
theorem C11_update_at_cap (len : Vec2 → ℚ) (pool : ℕ → List ℕ) (dt : ℚ)
    (c : PhysicsController) (h : MAX_OBJECTS ≤ c.getNumObjects) :
    (c.update len pool dt).state.getNumObjects = c.getNumObjects ∧
    (c.update len pool dt).state.spawners = c.spawners.map ObjectSpawner.stop ∧
    ∀ s ∈ (c.update len pool dt).state.spawners, s.keepShooting = false := by
  obtain ⟨h1, h2⟩ := PhysicsController.update_at_cap len pool dt c h
  refine ⟨h1, h2, ?_⟩
  intro s hs
  rw [h2, List.mem_map] at hs
  obtain ⟨s0, _, rfl⟩ := hs
  rfl

/-- C11 at a controller holding 2000 bodies. -/
theorem C11_update_at_cap_witness :
    (fullController.update axisLength (fun _ => [0, 1, 2, 3]) (1 / 60)).state.getNumObjects =
      fullController.getNumObjects ∧
    (fullController.update axisLength (fun _ => [0, 1, 2, 3]) (1 / 60)).state.spawners =
      fullController.spawners.map ObjectSpawner.stop ∧
    ∀ s ∈ (fullController.update axisLength (fun _ => [0, 1, 2, 3]) (1 / 60)).state.spawners,
      s.keepShooting = false :=
  C11_update_at_cap axisLength (fun _ => [0, 1, 2, 3]) (1 / 60) fullController (by decide!)

/-- C12: for every `dt ≥ MAX_TIME_STEP` and every controller state,
`PhysicsController::update(dt)` has the same result as
`PhysicsController::update(MAX_TIME_STEP)`. -/
theorem C12_update_dt_capped (len : Vec2 → ℚ) (pool : ℕ → List ℕ) (dt : ℚ)
    (c : PhysicsController) (h : MAX_TIME_STEP ≤ dt) :
    c.update len pool dt = c.update len pool MAX_TIME_STEP := by
  unfold PhysicsController.update
  rw [min_eq_right h, min_self]

/-- C12 at a step of one second on a freshly constructed controller. -/
theorem C12_update_dt_capped_witness :
    (PhysicsController.new 800 600).update axisLength (fun _ => [0, 1, 2, 3]) 1 =
      (PhysicsController.new 800 600).update axisLength (fun _ => [0, 1, 2, 3])
        MAX_TIME_STEP :=
  C12_update_dt_capped axisLength (fun _ => [0, 1, 2, 3]) 1 (PhysicsController.new 800 600)
    (by decide!)

/-- C20: a freshly constructed controller has five spawners and no bodies; a spawner
adds at most one body when it is ticked; and after every sequence of
`PhysicsController::update` calls from the fresh controller, with any time steps and
any pool orders, the body count is at most
`MAX_OBJECTS + (number of spawners - 1) = 2004`. -/
theorem C20_body_count_bounded (len : Vec2 → ℚ) (W H : ℕ)
    (frames : List (ℚ × (ℕ → List ℕ))) :
    (PhysicsController.new W H).spawners.length = 5 ∧
    (PhysicsController.new W H).objects = [] ∧
    (∀ (s : ObjectSpawner) (dt : ℚ) (objects : List PhysicsObject),
      (s.update dt objects).2.length ≤ objects.length + 1) ∧
    (forEach frames (fun f c => c.update len f.2 f.1)
        (PhysicsController.new W H)).state.getNumObjects ≤
      MAX_OBJECTS + ((PhysicsController.new W H).spawners.length - 1) ∧
    MAX_OBJECTS + ((PhysicsController.new W H).spawners.length - 1) = 2004 := by
  have h5 : (PhysicsController.new W H).spawners.length = 5 := rfl
  refine ⟨h5, rfl, fun s dt objects => (ObjectSpawner.update_length s dt objects).2, ?_, ?_⟩
  · rw [h5]
    have step : ∀ (f : ℚ × (ℕ → List ℕ)) (c : PhysicsController),
        c.spawners.length = 5 ∧ c.objects.length ≤ 2004 →
        (c.update len f.2 f.1).state.spawners.length = 5 ∧
          (c.update len f.2 f.1).state.objects.length ≤ 2004 := by
      intro f c hc
      obtain ⟨u1, _, u3⟩ := PhysicsController.update_count len f.2 f.1 c
      refine ⟨u1.trans hc.1, ?_⟩
      by_cases hcap : MAX_OBJECTS ≤ c.objects.length
      · simp only [hcap, if_true] at u3
        exact u3.trans hc.2
      · simp only [hcap, if_false] at u3
        have hlt : c.objects.length < 2000 := not_le.mp hcap
        rw [hc.1] at u3
        omega
    have hinv := forEach_preserves
      (fun c : PhysicsController => c.spawners.length = 5 ∧ c.objects.length ≤ 2004)
      frames (fun f c => c.update len f.2 f.1) (fun f _ c hc => step f c hc)
      (PhysicsController.new W H)
      ⟨h5, by simp [show (PhysicsController.new W H).objects = [] from rfl]⟩
    exact hinv.2
  · rw [h5]
    rfl

/-! ## Column ranges of the bands -/

/-- `handleCollisions` sweeps the columns `sweepColumns` in every interior row. -/
theorem handleCollisions_sweepColumns (len : Vec2 → ℚ) (W H : ℕ) (g : CollisionGrid)
    (widthLow widthHigh : ℤ) (objects : List PhysicsObject) :
    Atomos.handleCollisions len W H g widthLow widthHigh objects =
      forEach (intRange 1 ((g.height : ℤ) - 1)) (fun j =>
        forEach (sweepColumns g.width widthLow widthHigh)
          (fun i => visitCell len W H g i j)) objects := rfl

/-- The columns of a sweep never reach the last column of the grid. -/
theorem mem_sweepColumns (w : ℕ) (lo hi x : ℤ) (h : x ∈ sweepColumns w lo hi) :
    lo ≤ x ∧ x < (w : ℤ) - 1 := by
  unfold sweepColumns at h
  rw [mem_intRange] at h
  obtain ⟨h1, h2⟩ := h
  refine ⟨h1, ?_⟩
  split_ifs at h2 with hc
  · exact h2
  · have hlt : hi < (w : ℤ) := by
      by_contra hge
      exact hc (Or.inr (not_lt.mp hge))
    omega

theorem mem_bandColumns (w i : ℕ) (x : ℤ) :
    x ∈ bandColumns w i ↔
      (bandRange w i).1 ≤ x ∧ x < (bandRange w i).2 ∧ x < (w : ℤ) - 1 := by
  have hhi := bandRange_snd_pos w i
  unfold bandColumns sweepColumns
  rw [mem_intRange]
  split_ifs with hc
  · rcases hc with hc | hc
    · omega
    · constructor
      · rintro ⟨h1, h2⟩
        exact ⟨h1, by omega, h2⟩
      · rintro ⟨h1, _, h3⟩
        exact ⟨h1, h3⟩
  · have hlt : (bandRange w i).2 < (w : ℤ) := by
      by_contra hge
      exact hc (Or.inr (not_lt.mp hge))
    constructor
    · rintro ⟨h1, h2⟩
      exact ⟨h1, h2, by omega⟩
    · rintro ⟨h1, h2, _⟩
      exact ⟨h1, h2⟩

theorem bandRange_snd_eq_fst (w i : ℕ) : (bandRange w i).2 = (bandRange w (i + 1)).1 := by
  unfold bandRange
  simp only []
  push_cast
  rfl

theorem bandRange_zero_fst (w : ℕ) : (bandRange w 0).1 = 1 := by
  unfold bandRange
  simp

theorem bandRange_last_snd (w : ℕ) : (bandRange w 3).2 = (w : ℤ) + 1 := by
  unfold bandRange THREAD_COUNT
  simp only []
  have : (w : ℚ) / ((4 : ℕ) : ℚ) * (((3 : ℕ) : ℚ) + 1) = ((w : ℤ) : ℚ) := by
    push_cast
    ring
  rw [this, Int.floor_intCast]

theorem bandColumns_sorted (w i : ℕ) : (bandColumns w i).Sorted (· < ·) := by
  unfold bandColumns sweepColumns
  exact intRange_sorted _ _

/-- Columns of an earlier band lie left of the columns of a later band. -/
theorem bandColumns_lt (w i j : ℕ) (hij : i < j) (x y : ℤ) (hx : x ∈ bandColumns w i)
    (hy : y ∈ bandColumns w j) : x < y := by
  rw [mem_bandColumns] at hx hy
  have := bandRange_snd_le_fst w i j hij
  omega

/-- Every interior column lies in one of the four bands. -/
theorem exists_band (w : ℕ) (x : ℤ) (h1 : 1 ≤ x) (h2 : x < (w : ℤ) - 1) :
    ∃ i, i < THREAD_COUNT ∧ x ∈ bandColumns w i := by
  have e0 := bandRange_zero_fst w
  have e01 : (bandRange w 0).2 = (bandRange w 1).1 := bandRange_snd_eq_fst w 0
  have e12 : (bandRange w 1).2 = (bandRange w 2).1 := bandRange_snd_eq_fst w 1
  have e23 : (bandRange w 2).2 = (bandRange w 3).1 := bandRange_snd_eq_fst w 2
  have e3 := bandRange_last_snd w
  by_cases c0 : x < (bandRange w 0).2
  · exact ⟨0, by decide, (mem_bandColumns w 0 x).mpr ⟨by omega, c0, h2⟩⟩
  · by_cases c1 : x < (bandRange w 1).2
    · exact ⟨1, by decide, (mem_bandColumns w 1 x).mpr ⟨by omega, c1, h2⟩⟩
    · by_cases c2 : x < (bandRange w 2).2
      · exact ⟨2, by decide, (mem_bandColumns w 2 x).mpr ⟨by omega, c2, h2⟩⟩
      · exact ⟨3, by decide, (mem_bandColumns w 3 x).mpr ⟨by omega, by omega, h2⟩⟩

theorem mem_sweepColumns_full (w : ℕ) (x : ℤ) :
    x ∈ sweepColumns w 1 (-1) ↔ 1 ≤ x ∧ x < (w : ℤ) - 1 := by
  unfold sweepColumns
  simp [mem_intRange]

/-- Put one after the other, the columns of the four bands are the columns of the
sequential sweep, each once and in order. -/
theorem bandColumns_flatMap (w : ℕ) :
    (List.range THREAD_COUNT).flatMap (bandColumns w) = sweepColumns w 1 (-1) := by
  have hflat : (List.range THREAD_COUNT).flatMap (bandColumns w) =
      bandColumns w 0 ++ (bandColumns w 1 ++ (bandColumns w 2 ++ bandColumns w 3)) := by
    simp [THREAD_COUNT, List.range_succ, List.flatMap]
  rw [hflat]
  have hsorted : (bandColumns w 0 ++ (bandColumns w 1 ++
      (bandColumns w 2 ++ bandColumns w 3))).Sorted (· < ·) := by
    unfold List.Sorted
    rw [List.pairwise_append, List.pairwise_append, List.pairwise_append]
    refine ⟨bandColumns_sorted w 0, ⟨bandColumns_sorted w 1,
      ⟨bandColumns_sorted w 2, bandColumns_sorted w 3, ?_⟩, ?_⟩, ?_⟩
    · intro a ha b hb
      exact bandColumns_lt w 2 3 (by decide) a b ha hb
    · intro a ha b hb
      rcases List.mem_append.mp hb with hb | hb
      · exact bandColumns_lt w 1 2 (by decide) a b ha hb
      · exact bandColumns_lt w 1 3 (by decide) a b ha hb
    · intro a ha b hb
      rcases List.mem_append.mp hb with hb | hb
      · exact bandColumns_lt w 0 1 (by decide) a b ha hb
      · rcases List.mem_append.mp hb with hb | hb
        · exact bandColumns_lt w 0 2 (by decide) a b ha hb
        · exact bandColumns_lt w 0 3 (by decide) a b ha hb
  have hfull : (sweepColumns w 1 (-1)).Sorted (· < ·) := by
    unfold sweepColumns
    exact intRange_sorted _ _
  apply List.eq_of_perm_of_sorted _ hsorted hfull
  apply (List.perm_ext_iff_of_nodup hsorted.nodup hfull.nodup).mpr
  intro x
  rw [mem_sweepColumns_full]
  constructor
  · intro hx
    have hone : ∀ i, x ∈ bandColumns w i → 1 ≤ x ∧ x < (w : ℤ) - 1 := by
      intro i hi
      rw [mem_bandColumns] at hi
      have := bandRange_fst_pos w i
      omega
    simp only [List.mem_append] at hx
    rcases hx with hx | hx | hx | hx
    · exact hone 0 hx
    · exact hone 1 hx
    · exact hone 2 hx
    · exact hone 3 hx
  · rintro ⟨h1, h2⟩
    obtain ⟨i, hi, hx⟩ := exists_band w x h1 h2
    simp only [List.mem_append]
    have hi4 : i < 4 := hi
    interval_cases i
    · exact Or.inl hx
    · exact Or.inr (Or.inl hx)
    · exact Or.inr (Or.inr (Or.inl hx))
    · exact Or.inr (Or.inr (Or.inr hx))

/-- C17: for every grid width (widths below 3 included, where all ranges are empty) the
four column ranges built by `handleCollisionsThreaded`, after the clamp of `widthHigh`
in `handleCollisions`: band 0 starts at column 1 and every band ends where the next one
starts; put one after the other the clamped ranges are exactly the columns
`1, ..., width - 2` of the sequential sweep, each once and in order, so the ranges are
pairwise disjoint; and every interior column lies in exactly one band. -/
theorem C17_bands_partition (w : ℕ) :
    (bandRange w 0).1 = 1 ∧
    (∀ i, (bandRange w i).2 = (bandRange w (i + 1)).1) ∧
    (List.range THREAD_COUNT).flatMap (bandColumns w) = sweepColumns w 1 (-1) ∧
    sweepColumns w 1 (-1) = intRange 1 ((w : ℤ) - 1) ∧
    (∀ i j, i < j → ∀ x ∈ bandColumns w i, x ∉ bandColumns w j) ∧
    (∀ x : ℤ, 1 ≤ x → x < (w : ℤ) - 1 → ∃! i, i < THREAD_COUNT ∧ x ∈ bandColumns w i) := by
  refine ⟨bandRange_zero_fst w, bandRange_snd_eq_fst w, ?_, ?_, ?_, ?_⟩
  · exact bandColumns_flatMap w
  · unfold sweepColumns
    simp
  · intro i j hij x hx hxj
    exact lt_irrefl x (bandColumns_lt w i j hij x x hx hxj)
  · intro x h1 h2
    obtain ⟨i, hi, hx⟩ := exists_band w x h1 h2
    refine ⟨i, ⟨hi, hx⟩, ?_⟩
    rintro k ⟨_, hk⟩
    by_contra hne
    rcases Nat.lt_or_gt_of_ne hne with hlt | hgt
    · exact lt_irrefl x (bandColumns_lt w k i hlt x x hk hx)
    · exact lt_irrefl x (bandColumns_lt w i k hgt x x hx hk)

/-! ## Cell lookups of the sweep -/

theorem mem_getCellCalls (g : CollisionGrid) (widthLow widthHigh : ℤ) (x y : ℤ) :
    (x, y) ∈ getCellCalls g widthLow widthHigh ↔
      ∃ j ∈ intRange 1 ((g.height : ℤ) - 1), ∃ i ∈ sweepColumns g.width widthLow widthHigh,
        (x = i ∧ y = j) ∨
          ((g.getCell i j).count ≠ 0 ∧
            ∃ dj ∈ intRange (-1) 2, ∃ di ∈ intRange (-1) 2, x = i + di ∧ y = j + dj) := by
  unfold getCellCalls
  simp only [List.mem_flatMap, List.mem_cons, Prod.mk.injEq]
  constructor
  · rintro ⟨j, hj, i, hi, h⟩
    refine ⟨j, hj, i, hi, ?_⟩
    rcases h with h | h
    · exact Or.inl h
    · right
      split_ifs at h with hc
      · simp at h
      · simp only [List.mem_flatMap, List.mem_map, Prod.mk.injEq] at h
        obtain ⟨dj, hdj, di, hdi, h1, h2⟩ := h
        exact ⟨hc, dj, hdj, di, hdi, h1.symm, h2.symm⟩
  · rintro ⟨j, hj, i, hi, h⟩
    refine ⟨j, hj, i, hi, ?_⟩
    rcases h with h | ⟨hc, dj, hdj, di, hdi, h1, h2⟩
    · exact Or.inl h
    · right
      simp only [hc, if_false, List.mem_flatMap, List.mem_map, Prod.mk.injEq]
      exact ⟨dj, hdj, di, hdi, h1.symm, h2.symm⟩

/-- The list `getCellCalls` is complete: a sweep reads the grid at these coordinates
only, so two grids of the same size that hold the same cells there are swept alike. -/
theorem handleCollisions_reads (len : Vec2 → ℚ) (W H : ℕ) (g g1 : CollisionGrid)
    (widthLow widthHigh : ℤ) (objects : List PhysicsObject)
    (hw : g1.width = g.width) (hh : g1.height = g.height)
    (hcells : ∀ xy ∈ getCellCalls g widthLow widthHigh,
      g1.getCell xy.1 xy.2 = g.getCell xy.1 xy.2) :
    Atomos.handleCollisions len W H g1 widthLow widthHigh objects =
      Atomos.handleCollisions len W H g widthLow widthHigh objects := by
  rw [handleCollisions_sweepColumns, handleCollisions_sweepColumns, hw, hh]
  apply forEach_congr
  intro j hj s
  apply forEach_congr
  intro i hi s1
  have hcur : g1.getCell i j = g.getCell i j :=
    hcells (i, j) ((mem_getCellCalls g widthLow widthHigh i j).mpr
      ⟨j, hj, i, hi, Or.inl ⟨rfl, rfl⟩⟩)
  unfold visitCell
  simp only [hcur]
  split_ifs with hc
  · rfl
  · apply forEach_congr
    intro dj hdj s2
    apply forEach_congr
    intro di hdi s3
    have hadj : g1.getCell (i + di) (j + dj) = g.getCell (i + di) (j + dj) :=
      hcells (i + di, j + dj) ((mem_getCellCalls g widthLow widthHigh _ _).mpr
        ⟨j, hj, i, hi, Or.inr ⟨hc, dj, hdj, di, hdi, rfl, rfl⟩⟩)
    simp only [hadj]

/-- C18: for every grid, every `widthLow ≥ 1` and every `widthHigh`, each
`getCell(x, y)` call of `handleCollisions(widthLow, widthHigh)`, for the current cell
and for the nine cells around it, has `0 ≤ x < width` and `0 ≤ y < height`. -/
theorem C18_getCell_in_range (g : CollisionGrid) (widthLow widthHigh : ℤ)
    (hlow : 1 ≤ widthLow) :
    ∀ xy ∈ getCellCalls g widthLow widthHigh,
      0 ≤ xy.1 ∧ xy.1 < (g.width : ℤ) ∧ 0 ≤ xy.2 ∧ xy.2 < (g.height : ℤ) := by
  rintro ⟨x, y⟩ hxy
  rw [mem_getCellCalls] at hxy
  obtain ⟨j, hj, i, hi, h⟩ := hxy
  rw [mem_intRange] at hj
  obtain ⟨hi1, hi2⟩ := mem_sweepColumns g.width widthLow widthHigh i hi
  rcases h with ⟨rfl, rfl⟩ | ⟨_, dj, hdj, di, hdi, rfl, rfl⟩
  · simp only
    omega
  · rw [mem_intRange] at hdj hdi
    simp only
    omega

/-- C18 at the full sweep of the grid rebuilt for `smallWorld`, which makes 63 calls. -/
theorem C18_getCell_in_range_witness :
    (getCellCalls (rebuildGrid smallGrid smallWorld).state 1 (-1)).length = 63 ∧
    ∀ xy ∈ getCellCalls (rebuildGrid smallGrid smallWorld).state 1 (-1),
      0 ≤ xy.1 ∧ xy.1 < ((rebuildGrid smallGrid smallWorld).state.width : ℤ) ∧
        0 ≤ xy.2 ∧ xy.2 < ((rebuildGrid smallGrid smallWorld).state.height : ℤ) :=
  ⟨by decide!,
    C18_getCell_in_range (rebuildGrid smallGrid smallWorld).state 1 (-1) (by decide)⟩

/-! ## Loops as lists of steps -/

theorem result_andThen {σ : Type} (r : Run σ) (f : σ → Run σ) :
    (r.andThen f).result = r.result.bind fun s => (f s).result := by
  cases r <;> rfl

theorem andThen_assoc {σ : Type} (r : Run σ) (f g : σ → Run σ) :
    (r.andThen f).andThen g = r.andThen fun s => (f s).andThen g := by
  cases r <;> rfl

theorem forEach_append {α σ : Type} (l1 l2 : List α) (body : α → σ → Run σ) (s : σ) :
    forEach (l1 ++ l2) body s = (forEach l1 body s).andThen (forEach l2 body) := by
  induction l1 generalizing s with
  | nil => rfl
  | cons a rest ih =>
    show (body a s).andThen (forEach (rest ++ l2) body) =
      ((body a s).andThen (forEach rest body)).andThen (forEach l2 body)
    rw [andThen_assoc]
    cases body a s with
    | done s1 => exact ih s1
    | stopped f1 s1 => rfl

/-- A loop nest is the loop over the steps of all its passes. -/
theorem forEach_flatMap {α β σ : Type} (l : List β) (f : β → List α) (body : α → σ → Run σ)
    (s : σ) : forEach (l.flatMap f) body s = forEach l (fun b => forEach (f b) body) s := by
  induction l generalizing s with
  | nil => rfl
  | cons b rest ih =>
    rw [List.flatMap_cons, forEach_append]
    show _ = (forEach (f b) body s).andThen (forEach rest fun b => forEach (f b) body)
    cases forEach (f b) body s with
    | done s1 => exact ih s1
    | stopped f1 s1 => rfl

theorem forEach_map {α β σ : Type} (l : List β) (f : β → α) (body : α → σ → Run σ) (s : σ) :
    forEach (l.map f) body s = forEach l (fun b => body (f b)) s := by
  induction l generalizing s with
  | nil => rfl
  | cons b rest ih =>
    show (body (f b) s).andThen (forEach (rest.map f) body) =
      (body (f b) s).andThen (forEach rest fun b => body (f b))
    cases body (f b) s with
    | done s1 => exact ih s1
    | stopped f1 s1 => rfl

theorem result_forEach_append {α σ : Type} (l1 l2 : List α) (body : α → σ → Run σ) (s : σ) :
    (forEach (l1 ++ l2) body s).result =
      (forEach l1 body s).result.bind fun s1 => (forEach l2 body s1).result := by
  rw [forEach_append, result_andThen]

theorem result_forEach_cons {α σ : Type} (a : α) (l : List α) (body : α → σ → Run σ) (s : σ) :
    (forEach (a :: l) body s).result =
      (body a s).result.bind fun s1 => (forEach l body s1).result :=
  result_andThen _ _

/-- Equal results of two lists of steps stay equal behind a common first part. -/
theorem result_forEach_prefix {α σ : Type} (P l1 l2 : List α) (body : α → σ → Run σ)
    (h : ∀ s, (forEach l1 body s).result = (forEach l2 body s).result) (s : σ) :
    (forEach (P ++ l1) body s).result = (forEach (P ++ l2) body s).result := by
  rw [result_forEach_append, result_forEach_append]
  congr 1
  funext s1
  exact h s1

/-- A step that commutes with every step of `M` can run after `M` instead of before. -/
theorem result_forEach_move {α σ : Type} (body : α → σ → Run σ) (a : α) (M N : List α)
    (h : ∀ b ∈ M, StepsCommute body a b) (s : σ) :
    (forEach (a :: (M ++ N)) body s).result = (forEach (M ++ a :: N) body s).result := by
  induction M generalizing s with
  | nil => rfl
  | cons b rest ih =>
    have hswap : (forEach (a :: b :: (rest ++ N)) body s).result =
        (forEach (b :: a :: (rest ++ N)) body s).result := by
      show (((body a s).andThen fun s1 => (body b s1).andThen (forEach (rest ++ N) body))).result =
        (((body b s).andThen fun s1 => (body a s1).andThen (forEach (rest ++ N) body))).result
      rw [← andThen_assoc, ← andThen_assoc, result_andThen, result_andThen (r := (body b s).andThen _),
        h b (List.mem_cons_self _ _) s]
    show (forEach (a :: b :: (rest ++ N)) body s).result = _
    rw [hswap]
    show (forEach ([b] ++ a :: (rest ++ N)) body s).result =
      (forEach ([b] ++ (rest ++ a :: N)) body s).result
    exact result_forEach_prefix [b] _ _ body
      (ih (fun c hc => h c (List.mem_cons_of_mem _ hc))) s

/-- Two blocks of steps that commute with each other can change places. -/
theorem result_forEach_swap {α σ : Type} (body : α → σ → Run σ) (A B N : List α)
    (h : ∀ a ∈ A, ∀ b ∈ B, StepsCommute body a b) (s : σ) :
    (forEach (A ++ (B ++ N)) body s).result = (forEach (B ++ (A ++ N)) body s).result := by
  induction A generalizing s with
  | nil => rfl
  | cons a rest ih =>
    have h1 : (forEach (a :: rest ++ (B ++ N)) body s).result =
        (forEach (a :: (B ++ (rest ++ N))) body s).result :=
      result_forEach_prefix [a] _ _ body
        (ih (fun c hc => h c (List.mem_cons_of_mem _ hc))) s
    rw [h1]
    exact result_forEach_move body a B (rest ++ N) (h a (List.mem_cons_self _ _)) s

/-! ## Calls of `checkCollision` on different bodies -/

/-- What a call of `checkCollision` on two pointers does: nothing, or it stops, or it
writes these two bodies. -/
theorem checkCollisionAt_cases (len : Vec2 → ℚ) (W H : ℕ) (p : ℕ × ℕ)
    (s : List PhysicsObject) :
    checkCollisionAt len W H p.1 p.2 s = done s ∨
      checkCollisionAt len W H p.1 p.2 s = stopped Fault.divisionByZero s ∨
      ∃ a b, checkCollisionAt len W H p.1 p.2 s = done ((s.set p.1 a).set p.2 b) := by
  unfold checkCollisionAt
  split
  · split
    · exact Or.inr (Or.inr ⟨_, _, rfl⟩)
    · exact Or.inr (Or.inl rfl)
  · exact Or.inl rfl

/-- A call of `checkCollision` reads no body other than its two: after a write to
another body it does what it did before, on the bodies with that write. -/
theorem checkCollisionAt_set (len : Vec2 → ℚ) (W H : ℕ) (p : ℕ × ℕ) (k : ℕ)
    (o : PhysicsObject) (s : List PhysicsObject) (h1 : k ≠ p.1) (h2 : k ≠ p.2) :
    checkCollisionAt len W H p.1 p.2 (s.set k o) =
      (checkCollisionAt len W H p.1 p.2 s).map fun l => l.set k o := by
  unfold checkCollisionAt
  rw [List.getElem?_set_ne h1, List.getElem?_set_ne h2]
  cases s[p.1]? with
  | none => rfl
  | some o1 =>
    cases s[p.2]? with
    | none => rfl
    | some o2 =>
      cases hcc : checkCollision len W H o1 o2 with
      | none => simp only [hcc, Run.map]
      | some r =>
        simp only [hcc, Run.map]
        rw [List.set_comm o r.1 s h1, List.set_comm o r.2 _ h2]

theorem checkCollisionAt_set_set (len : Vec2 → ℚ) (W H : ℕ) (p q : ℕ × ℕ)
    (a b : PhysicsObject) (s : List PhysicsObject) (h : CallsApart p q) :
    checkCollisionAt len W H p.1 p.2 ((s.set q.1 a).set q.2 b) =
      (checkCollisionAt len W H p.1 p.2 s).map fun l => (l.set q.1 a).set q.2 b := by
  obtain ⟨h1, h2, h3, h4⟩ := h
  rw [checkCollisionAt_set len W H p q.2 b _ (Ne.symm h2) (Ne.symm h4),
    checkCollisionAt_set len W H p q.1 a _ (Ne.symm h1) (Ne.symm h3)]
  cases checkCollisionAt len W H p.1 p.2 s <;> rfl

theorem callsApart_symm {p q : ℕ × ℕ} (h : CallsApart p q) : CallsApart q p :=
  ⟨Ne.symm h.1, Ne.symm h.2.2.1, Ne.symm h.2.1, Ne.symm h.2.2.2⟩

/-- Two calls of `checkCollision` with no body in common give the same result in either
order. -/
theorem checkCollisionAt_commute (len : Vec2 → ℚ) (W H : ℕ) (p q : ℕ × ℕ)
    (h : CallsApart p q) :
    StepsCommute (fun c : ℕ × ℕ => checkCollisionAt len W H c.1 c.2) p q := by
  intro s
  have hq := callsApart_symm h
  obtain ⟨h1, h2, h3, h4⟩ := h
  show ((checkCollisionAt len W H p.1 p.2 s).andThen
      fun s1 => checkCollisionAt len W H q.1 q.2 s1).result =
    ((checkCollisionAt len W H q.1 q.2 s).andThen
      fun s1 => checkCollisionAt len W H p.1 p.2 s1).result
  rcases checkCollisionAt_cases len W H p s with hp | hp | ⟨a, b, hp⟩ <;>
    rcases checkCollisionAt_cases len W H q s with hq1 | hq1 | ⟨c, d, hq1⟩
  · rw [hp, hq1]
    simp only [Run.andThen]
    rw [hp, hq1]
  · rw [hp, hq1]
    simp only [Run.andThen]
    rw [hq1]
  · rw [hp, hq1]
    simp only [Run.andThen]
    rw [hq1, checkCollisionAt_set_set len W H p q c d s ⟨h1, h2, h3, h4⟩, hp]
    rfl
  · rw [hp, hq1]
    simp only [Run.andThen]
    rw [hp]
  · rw [hp, hq1]
    rfl
  · rw [hp, hq1]
    simp only [Run.andThen]
    rw [checkCollisionAt_set_set len W H p q c d s ⟨h1, h2, h3, h4⟩, hp]
    rfl
  · rw [hp, hq1]
    simp only [Run.andThen]
    rw [hp, checkCollisionAt_set_set len W H q p a b s hq, hq1]
    rfl
  · rw [hp, hq1]
    simp only [Run.andThen]
    rw [checkCollisionAt_set_set len W H q p a b s hq, hq1]
    rfl
  · rw [hp, hq1]
    simp only [Run.andThen]
    rw [checkCollisionAt_set_set len W H q p a b s hq, hq1,
      checkCollisionAt_set_set len W H p q c d s ⟨h1, h2, h3, h4⟩, hp]
    simp only [Run.map, Run.result]
    rw [List.set_comm b c _ h3, List.set_comm b d _ h4, List.set_comm a c s h1,
      List.set_comm a d _ h2]

/-! ## A sweep as the list of its calls -/

theorem checkCellCollisions_calls (len : Vec2 → ℚ) (W H : ℕ) (cell1 cell2 : CollisionNode)
    (s : List PhysicsObject) :
    checkCellCollisions len W H cell1 cell2 s =
      forEach (checkCellCollisionsCalls cell1 cell2)
        (fun c => checkCollisionAt len W H c.1 c.2) s := by
  unfold checkCellCollisions checkCellCollisionsCalls
  rw [forEach_flatMap]
  apply forEach_congr
  intro obj1 _ s1
  rw [forEach_map, forEach_filter (fun obj2 => obj1 ≠ obj2) cell2.members _
    (fun b _ hb s2 => by simp only [hb, if_false])]
  apply forEach_congr
  intro b hb s2
  have hne : obj1 ≠ b := by
    have := (List.mem_filter.mp hb).2
    exact of_decide_eq_true this
  simp only [hne, if_true, ne_eq, not_false_eq_true]

theorem visitCell_calls (len : Vec2 → ℚ) (W H : ℕ) (g : CollisionGrid) (i j : ℤ)
    (s : List PhysicsObject) :
    visitCell len W H g i j s =
      forEach (visitCellCalls g i j) (fun c => checkCollisionAt len W H c.1 c.2) s := by
  unfold visitCell visitCellCalls
  simp only []
  split_ifs with h0
  · rfl
  · rw [forEach_flatMap]
    apply forEach_congr
    intro dj _ s1
    rw [forEach_flatMap]
    apply forEach_congr
    intro di _ s2
    split_ifs with h1
    · rfl
    · exact checkCellCollisions_calls len W H _ _ s2

/-- `handleCollisions` makes the calls `checkCollisionCalls`, one after the other, and
does nothing else to the bodies. -/
theorem handleCollisions_calls (len : Vec2 → ℚ) (W H : ℕ) (g : CollisionGrid)
    (widthLow widthHigh : ℤ) (s : List PhysicsObject) :
    handleCollisions len W H g widthLow widthHigh s =
      forEach (checkCollisionCalls g widthLow widthHigh)
        (fun c => checkCollisionAt len W H c.1 c.2) s := by
  rw [handleCollisions_sweepColumns]
  unfold checkCollisionCalls
  rw [forEach_flatMap]
  apply forEach_congr
  intro j _ s1
  rw [forEach_flatMap]
  apply forEach_congr
  intro i _ s2
  exact visitCell_calls len W H g i j s2

/-! ## The pool -/

theorem getElem_split {α : Type} (l : List α) (t : ℕ) (a : α) (h : l[t]? = some a) :
    ∃ pre post, l = pre ++ a :: post ∧ ∀ b, l.set t b = pre ++ b :: post := by
  induction l generalizing t with
  | nil => simp at h
  | cons x rest ih =>
    cases t with
    | zero =>
      simp only [List.getElem?_cons_zero, Option.some.injEq] at h
      subst h
      exact ⟨[], rest, rfl, fun b => rfl⟩
    | succ n =>
      simp only [List.getElem?_cons_succ] at h
      obtain ⟨pre, post, h1, h2⟩ := ih n h
      refine ⟨x :: pre, post, by rw [h1]; rfl, fun b => ?_⟩
      rw [List.set_cons_succ, h2 b]
      rfl

/-- Tasks whose steps commute with the steps of every other task: however the pool
interleaves them, when all have finished the result is that of the tasks run one after
the other in the order of the list. -/
theorem runTasks_result (len : Vec2 → ℚ) (W H : ℕ) (schedule : List ℕ) :
    ∀ (tasks : List (List (ℕ × ℕ))) (s : List PhysicsObject),
      tasks.Pairwise (fun A B => ∀ a ∈ A, ∀ b ∈ B,
        StepsCommute (fun c : ℕ × ℕ => checkCollisionAt len W H c.1 c.2) a b) →
      (∀ i T, tasks[i]? = some T → T.length ≤ schedule.count i) →
      (runTasks len W H tasks schedule s).result =
        (forEach tasks.flatten (fun c => checkCollisionAt len W H c.1 c.2) s).result := by
  induction schedule with
  | nil =>
    intro tasks s _ hfair
    have hnil : tasks.flatten = [] := by
      rw [List.flatten_eq_nil_iff]
      intro T hT
      obtain ⟨i, hi⟩ := List.getElem?_of_mem hT
      have := hfair i T hi
      simp only [List.count_nil, Nat.le_zero_eq] at this
      exact List.length_eq_zero.mp this
    rw [hnil]
    rfl
  | cons t rest ih =>
    intro tasks s hcomm hfair
    have hskip : (∀ T, tasks[t]? = some T → T = []) →
        (runTasks len W H tasks rest s).result =
          (forEach tasks.flatten (fun c => checkCollisionAt len W H c.1 c.2) s).result := by
      intro hT
      apply ih tasks s hcomm
      intro i T hi
      have h1 := hfair i T hi
      by_cases hit : t = i
      · subst hit
        rw [hT T hi]
        exact Nat.zero_le _
      · rwa [List.count_cons_of_ne (Ne.symm hit)] at h1
    cases ht : tasks[t]? with
    | none =>
      have hrun : runTasks len W H tasks (t :: rest) s = runTasks len W H tasks rest s := by
        simp only [runTasks, ht]
      rw [hrun]
      apply hskip
      intro T hT
      rw [ht] at hT
      exact absurd hT (by simp)
    | some T0 =>
      cases T0 with
      | nil =>
        have hrun : runTasks len W H tasks (t :: rest) s = runTasks len W H tasks rest s := by
          simp only [runTasks, ht]
        rw [hrun]
        apply hskip
        intro T hT
        rw [ht] at hT
        exact (Option.some.inj hT).symm
      | cons p ps =>
        have hrun : runTasks len W H tasks (t :: rest) s =
            (checkCollisionAt len W H p.1 p.2 s).andThen
              (runTasks len W H (tasks.set t ps) rest) := by
          simp only [runTasks, ht]
        obtain ⟨pre, post, hsplit, hset⟩ := getElem_split tasks t (p :: ps) ht
        have hlt : t < tasks.length := by
          by_contra hge
          rw [List.getElem?_eq_none (not_lt.mp hge)] at ht
          exact absurd ht (by simp)
        rw [hsplit] at hcomm
        rw [List.pairwise_append, List.pairwise_cons] at hcomm
        obtain ⟨hpre, ⟨hmid, hpost⟩, hcross⟩ := hcomm
        have hcomm1 : (tasks.set t ps).Pairwise (fun A B => ∀ a ∈ A, ∀ b ∈ B,
            StepsCommute (fun c : ℕ × ℕ => checkCollisionAt len W H c.1 c.2) a b) := by
          rw [hset ps, List.pairwise_append, List.pairwise_cons]
          refine ⟨hpre, ⟨fun B hB a ha b hb => hmid B hB a (List.mem_cons_of_mem _ ha) b hb,
            hpost⟩, ?_⟩
          intro A hA B hB a ha b hb
          rcases List.mem_cons.mp hB with hB | hB
          · rw [hB] at hb
            exact hcross A hA (p :: ps) (List.mem_cons_self _ _) a ha b
              (List.mem_cons_of_mem _ hb)
          · exact hcross A hA B (List.mem_cons_of_mem _ hB) a ha b hb
        have hfair1 : ∀ i T, (tasks.set t ps)[i]? = some T → T.length ≤ rest.count i := by
          intro i T hi
          by_cases hit : t = i
          · subst hit
            rw [List.getElem?_set_self hlt] at hi
            have h1 := hfair t (p :: ps) ht
            rw [List.count_cons_self, List.length_cons] at h1
            rw [← Option.some.inj hi]
            omega
          · rw [List.getElem?_set_ne hit] at hi
            have h1 := hfair i T hi
            rwa [List.count_cons_of_ne (Ne.symm hit)] at h1
        rw [hrun, result_andThen]
        have hih : (fun s1 => (runTasks len W H (tasks.set t ps) rest s1).result) =
            fun s1 => (forEach (tasks.set t ps).flatten
              (fun c => checkCollisionAt len W H c.1 c.2) s1).result := by
          funext s1
          exact ih (tasks.set t ps) s1 hcomm1 hfair1
        rw [hih, ← result_forEach_cons p _ (fun c : ℕ × ℕ => checkCollisionAt len W H c.1 c.2),
          hset ps, hsplit]
        simp only [List.flatten_append, List.flatten_cons, List.cons_append]
        apply result_forEach_move
        intro b hb
        obtain ⟨A, hA, hbA⟩ := List.mem_flatten.mp hb
        have := hcross A hA (p :: ps) (List.mem_cons_self _ _) b hbA p (List.mem_cons_self _ _)
        intro s1
        exact (this s1).symm

/-! ## Row by row and band by band -/

/-- The steps of blocks `R b ++ T b`, one block per band, give the same result with all
the `R b` first and all the `T b` after them, when steps of different bands commute. -/
theorem result_forEach_unzip {α γ σ : Type} (body : α → σ → Run σ) (R T : γ → List α)
    (bands : List γ) (N : List α)
    (h : bands.Pairwise fun x y => ∀ a ∈ T x, ∀ b ∈ R y, StepsCommute body a b) (s : σ) :
    (forEach ((bands.map fun b => R b ++ T b).flatten ++ N) body s).result =
      (forEach ((bands.map R).flatten ++ ((bands.map T).flatten ++ N)) body s).result := by
  induction bands generalizing s with
  | nil => rfl
  | cons b rest ih =>
    rw [List.pairwise_cons] at h
    obtain ⟨hb, hrest⟩ := h
    simp only [List.map_cons, List.flatten_cons, List.append_assoc]
    apply result_forEach_prefix (R b)
    intro s1
    have h1 : (forEach (T b ++ ((rest.map fun b => R b ++ T b).flatten ++ N)) body s1).result =
        (forEach (T b ++ ((rest.map R).flatten ++ ((rest.map T).flatten ++ N))) body s1).result :=
      result_forEach_prefix (T b) _ _ body (fun s2 => ih hrest s2) s1
    rw [h1]
    apply result_forEach_swap
    intro a ha c hc
    obtain ⟨A, hA, hcA⟩ := List.mem_flatten.mp hc
    obtain ⟨y, hy, rfl⟩ := List.mem_map.mp hA
    exact hb y hy a ha c hcA

theorem flatten_map_nil {α γ : Type} (bands : List γ) :
    (bands.map fun _ => ([] : List α)).flatten = [] := by
  induction bands with
  | nil => rfl
  | cons b rest ih => simp [ih]

/-- A sweep that goes row by row over the columns of all bands gives the same result as
the sweeps of the single bands, each over all rows, one after the other, when steps of
different bands commute. -/
theorem result_forEach_rows {α β γ σ : Type} (body : α → σ → Run σ) (f : β → γ → List α)
    (rows : List β) (bands : List (List γ))
    (h : bands.Pairwise fun A B => ∀ x ∈ A, ∀ y ∈ B, ∀ j ∈ rows, ∀ k ∈ rows,
      ∀ a ∈ f j x, ∀ b ∈ f k y, StepsCommute body a b) (s : σ) :
    (forEach (rows.flatMap fun j => bands.flatten.flatMap (f j)) body s).result =
      (forEach (bands.map fun band => rows.flatMap fun j => band.flatMap (f j)).flatten
        body s).result := by
  induction rows generalizing s with
  | nil =>
    simp only [List.flatMap_nil]
    rw [flatten_map_nil]
  | cons j rest ih =>
    have hrest : bands.Pairwise fun A B => ∀ x ∈ A, ∀ y ∈ B, ∀ j ∈ rest, ∀ k ∈ rest,
        ∀ a ∈ f j x, ∀ b ∈ f k y, StepsCommute body a b :=
      h.imp fun {A B} hAB x hx y hy j1 hj1 k hk =>
        hAB x hx y hy j1 (List.mem_cons_of_mem _ hj1) k (List.mem_cons_of_mem _ hk)
    have hl : bands.flatten.flatMap (f j) = (bands.map fun band => band.flatMap (f j)).flatten := by
      simp only [List.flatMap, List.map_flatten, List.flatten_flatten, List.map_map]
      rfl
    simp only [List.flatMap_cons]
    rw [hl]
    have h1 : (forEach ((bands.map fun band => band.flatMap (f j)).flatten ++
          rest.flatMap fun j => bands.flatten.flatMap (f j)) body s).result =
        (forEach ((bands.map fun band => band.flatMap (f j)).flatten ++
          ((bands.map fun band => rest.flatMap fun j => band.flatMap (f j)).flatten ++ []))
          body s).result := by
      rw [List.append_nil]
      exact result_forEach_prefix _ _ _ body (fun s1 => ih hrest s1) s
    rw [h1, ← result_forEach_unzip body (fun band => band.flatMap (f j))
      (fun band => rest.flatMap fun j => band.flatMap (f j)) bands [] _ s, List.append_nil]
    apply h.imp
    intro A B hAB a ha b hb
    obtain ⟨j1, hj1, ha1⟩ := List.mem_flatMap.mp ha
    obtain ⟨x, hx, hax⟩ := List.mem_flatMap.mp ha1
    obtain ⟨y, hy, hby⟩ := List.mem_flatMap.mp hb
    exact hAB x hx y hy j1 (List.mem_cons_of_mem _ hj1) j (List.mem_cons_self _ _) a hax b hby

/-! ## The band tasks and the sequential sweep -/

theorem bandCalls_eq (g : CollisionGrid) (i : ℕ) :
    bandCalls g i = (intRange 1 ((g.height : ℤ) - 1)).flatMap fun j =>
      (bandColumns g.width i).flatMap fun x => visitCellCalls g x j := rfl

/-- Calls of two different band tasks commute when the bands share no body. -/
theorem bandCalls_commute (len : Vec2 → ℚ) (W H : ℕ) (g : CollisionGrid)
    (h : BandsShareNoBody g) :
    (List.range THREAD_COUNT).Pairwise fun i j => ∀ a ∈ bandCalls g i, ∀ b ∈ bandCalls g j,
      StepsCommute (fun c : ℕ × ℕ => checkCollisionAt len W H c.1 c.2) a b := by
  apply (List.nodup_range THREAD_COUNT).imp_of_mem
  intro i j hi hj hij a ha b hb
  exact checkCollisionAt_commute len W H a b
    (h i (List.mem_range.mp hi) j (List.mem_range.mp hj) hij a ha b hb)

/-- When the bands share no body, the sequential sweep gives the result of the four band
tasks run one after the other. -/
theorem handleCollisions_result_bands (len : Vec2 → ℚ) (W H : ℕ) (g : CollisionGrid)
    (h : BandsShareNoBody g) (s : List PhysicsObject) :
    (handleCollisions len W H g 1 (-1) s).result =
      (forEach ((List.range THREAD_COUNT).map (bandCalls g)).flatten
        (fun c => checkCollisionAt len W H c.1 c.2) s).result := by
  rw [handleCollisions_calls]
  unfold checkCollisionCalls
  rw [← bandColumns_flatMap]
  have hl : (List.range THREAD_COUNT).flatMap (bandColumns g.width) =
      ((List.range THREAD_COUNT).map (bandColumns g.width)).flatten := rfl
  rw [hl, result_forEach_rows (fun c : ℕ × ℕ => checkCollisionAt len W H c.1 c.2)
    (fun j x => visitCellCalls g x j), List.map_map]
  · rfl
  · rw [List.pairwise_map]
    apply (bandCalls_commute len W H g h).imp
    intro i j hij x hx y hy j1 hj1 k hk a ha b hb
    apply hij a _ b _
    · rw [bandCalls_eq]
      exact List.mem_flatMap.mpr ⟨j1, hj1, List.mem_flatMap.mpr ⟨x, hx, ha⟩⟩
    · rw [bandCalls_eq]
      exact List.mem_flatMap.mpr ⟨k, hk, List.mem_flatMap.mpr ⟨y, hy, hb⟩⟩

/-- When the bands share no body, every interleaving of the four band tasks that lets
all of them finish gives the result of the tasks run one after the other. -/
theorem handleCollisionsConcurrent_result (len : Vec2 → ℚ) (W H : ℕ) (g : CollisionGrid)
    (h : BandsShareNoBody g) (schedule : List ℕ) (hall : RunsAllTasks g schedule)
    (s : List PhysicsObject) :
    (handleCollisionsConcurrent len W H g schedule s).result =
      (forEach ((List.range THREAD_COUNT).map (bandCalls g)).flatten
        (fun c => checkCollisionAt len W H c.1 c.2) s).result := by
  unfold handleCollisionsConcurrent
  apply runTasks_result
  · rw [List.pairwise_map]
    exact bandCalls_commute len W H g h
  · intro i T hi
    rw [List.getElem?_map] at hi
    cases hr : (List.range THREAD_COUNT)[i]? with
    | none =>
      rw [hr] at hi
      exact absurd hi (by simp)
    | some k =>
      rw [hr] at hi
      have hk : i < THREAD_COUNT ∧ k = i := by
        have hlt : i < (List.range THREAD_COUNT).length := by
          by_contra hge
          rw [List.getElem?_eq_none (not_lt.mp hge)] at hr
          exact absurd hr (by simp)
        rw [List.getElem?_eq_getElem hlt, List.getElem_range] at hr
        exact ⟨by simpa using hlt, (Option.some.inj hr).symm⟩
      obtain ⟨hk1, rfl⟩ := hk
      have hT : bandCalls g k = T := Option.some.inj hi
      rw [← hT]
      exact hall k hk1

/-- Blocks of steps that commute with each other give the same result in every order. -/
theorem result_forEach_perm {α ι σ : Type} (body : α → σ → Run σ) (T : ι → List α)
    (l1 l2 : List ι) (hp : l1.Perm l2) :
    l1.Nodup → (∀ i ∈ l1, ∀ j ∈ l1, i ≠ j → ∀ a ∈ T i, ∀ b ∈ T j, StepsCommute body a b) →
      ∀ s, (forEach (l1.flatMap T) body s).result = (forEach (l2.flatMap T) body s).result := by
  induction hp with
  | nil => intro _ _ s; rfl
  | cons x _ ih =>
    intro hnd h s
    rw [List.flatMap_cons, List.flatMap_cons]
    exact result_forEach_prefix (T x) _ _ body
      (ih (List.nodup_cons.mp hnd).2
        (fun i hi j hj => h i (List.mem_cons_of_mem _ hi) j (List.mem_cons_of_mem _ hj))) s
  | swap x y l =>
    intro hnd h s
    simp only [List.flatMap_cons]
    apply result_forEach_swap
    have hxy : y ≠ x := by
      intro hyx
      rw [hyx] at hnd
      exact (List.nodup_cons.mp hnd).1 (List.mem_cons_self _ _)
    exact h y (List.mem_cons_self _ _) x (List.mem_cons_of_mem _ (List.mem_cons_self _ _)) hxy
  | trans hp1 _ ih1 ih2 =>
    intro hnd h s
    rw [ih1 hnd h s]
    exact ih2 (hp1.nodup_iff.mp hnd)
      (fun i hi j hj => h i (hp1.mem_iff.mpr hi) j (hp1.mem_iff.mpr hj)) s

/-- The band tasks run one after the other, each to its end, are the loop over the calls
of the tasks in that order. -/
theorem handleCollisionsThreaded_calls (len : Vec2 → ℚ) (W H : ℕ) (g : CollisionGrid)
    (order : List ℕ) (s : List PhysicsObject) :
    handleCollisionsThreaded len W H g order s =
      forEach (order.flatMap (bandCalls g)) (fun c => checkCollisionAt len W H c.1 c.2) s := by
  unfold handleCollisionsThreaded
  rw [forEach_flatMap]
  apply forEach_congr
  intro i _ s1
  exact handleCollisions_calls len W H g _ _ s1

/-! ## Bands that share no body -/

theorem count_ne_zero_of_mem (c : CollisionNode) (b : ℕ) (h : b ∈ c.members) :
    c.count ≠ 0 := by
  intro h0
  unfold CollisionNode.members at h
  rw [h0] at h
  simp at h

theorem mem_checkCellCollisionsCalls (cell1 cell2 : CollisionNode) (p : ℕ × ℕ)
    (h : p ∈ checkCellCollisionsCalls cell1 cell2) :
    p.1 ∈ cell1.members ∧ p.2 ∈ cell2.members := by
  unfold checkCellCollisionsCalls at h
  obtain ⟨a, ha, hp⟩ := List.mem_flatMap.mp h
  obtain ⟨b, hb, rfl⟩ := List.mem_map.mp hp
  exact ⟨ha, (List.mem_filter.mp hb).1⟩

/-- Every call of a band task is on a body of an occupied cell in a column of the band
and on a body of one of the nine cells around it. -/
theorem mem_bandCalls (g : CollisionGrid) (k : ℕ) (p : ℕ × ℕ) (h : p ∈ bandCalls g k) :
    ∃ x y di dj : ℤ, x ∈ bandColumns g.width k ∧ -1 ≤ di ∧ di ≤ 1 ∧ -1 ≤ dj ∧ dj ≤ 1 ∧
      p.1 ∈ (g.getCell x y).members ∧ p.2 ∈ (g.getCell (x + di) (y + dj)).members := by
  rw [bandCalls_eq] at h
  obtain ⟨y, _, h1⟩ := List.mem_flatMap.mp h
  obtain ⟨x, hx, h2⟩ := List.mem_flatMap.mp h1
  unfold visitCellCalls at h2
  split_ifs at h2 with h0
  · simp at h2
  · obtain ⟨dj, hdj, h3⟩ := List.mem_flatMap.mp h2
    obtain ⟨di, hdi, h4⟩ := List.mem_flatMap.mp h3
    split_ifs at h4 with h5
    · simp at h4
    · rw [mem_intRange] at hdj hdi
      obtain ⟨h6, h7⟩ := mem_checkCellCollisionsCalls _ _ p h4
      exact ⟨x, y, di, dj, hx, hdi.1, by omega, hdj.1, by omega, h6, h7⟩

/-- A body a band task touches lies in a cell at most one column away from an occupied
cell in a column of the band. -/
theorem bandCalls_touch (g : CollisionGrid) (k : ℕ) (p : ℕ × ℕ) (h : p ∈ bandCalls g k)
    (b : ℕ) (hb : b = p.1 ∨ b = p.2) :
    ∃ x y cx cy : ℤ, x ∈ bandColumns g.width k ∧ (g.getCell x y).count ≠ 0 ∧
      b ∈ (g.getCell cx cy).members ∧ -1 ≤ cx - x ∧ cx - x ≤ 1 ∧ -1 ≤ cy - y ∧ cy - y ≤ 1 := by
  obtain ⟨x, y, di, dj, hx, h1, h2, h3, h4, h5, h6⟩ := mem_bandCalls g k p h
  have hocc := count_ne_zero_of_mem _ _ h5
  rcases hb with rfl | rfl
  · exact ⟨x, y, x, y, hx, hocc, h5, by omega, by omega, by omega, by omega⟩
  · exact ⟨x, y, x + di, y + dj, hx, hocc, h6, by omega, by omega, by omega, by omega⟩

theorem band_unique (w i j : ℕ) (x : ℤ) (hi : x ∈ bandColumns w i) (hj : x ∈ bandColumns w j) :
    i = j := by
  by_contra hne
  rcases Nat.lt_or_gt_of_ne hne with hlt | hgt
  · exact lt_irrefl x (bandColumns_lt w i j hlt x x hi hj)
  · exact lt_irrefl x (bandColumns_lt w j i hgt x x hj hi)

/-- No body is touched by two bands when every body is in one cell only and no occupied
cell has an occupied cell in a column of another band among the cells around it. -/
theorem bandsShareNoBody_of_apart (g : CollisionGrid)
    (hcell : ∀ (b : ℕ) (x y x1 y1 : ℤ), b ∈ (g.getCell x y).members →
      b ∈ (g.getCell x1 y1).members → x = x1 ∧ y = y1)
    (hsep : ∀ (x y x1 y1 : ℤ) (i j : ℕ), (g.getCell x y).count ≠ 0 →
      (g.getCell x1 y1).count ≠ 0 → -1 ≤ x1 - x → x1 - x ≤ 1 → -1 ≤ y1 - y → y1 - y ≤ 1 →
      x ∈ bandColumns g.width i → x1 ∈ bandColumns g.width j → i = j) :
    BandsShareNoBody g := by
  have key : ∀ i j : ℕ, i ≠ j → ∀ p ∈ bandCalls g i, ∀ q ∈ bandCalls g j, ∀ b : ℕ,
      (b = p.1 ∨ b = p.2) → (b = q.1 ∨ b = q.2) → False := by
    intro i j hij p hp q hq b hbp hbq
    obtain ⟨x, y, cx, cy, hx, hocc, hb, h1, h2, h3, h4⟩ := bandCalls_touch g i p hp b hbp
    obtain ⟨x1, y1, cx1, cy1, hx1, hocc1, hb1, h5, h6, h7, h8⟩ :=
      bandCalls_touch g j q hq b hbq
    obtain ⟨e1, e2⟩ := hcell b cx cy cx1 cy1 hb hb1
    subst e1
    subst e2
    have hc := count_ne_zero_of_mem _ _ hb
    have hxr := (mem_bandColumns g.width i x).mp hx
    have hx1r := (mem_bandColumns g.width j x1).mp hx1
    have hxp := bandRange_fst_pos g.width i
    have hx1p := bandRange_fst_pos g.width j
    by_cases hin : 1 ≤ cx ∧ cx < (g.width : ℤ) - 1
    · obtain ⟨n, _, hn⟩ := exists_band g.width cx hin.1 hin.2
      have e3 := hsep cx cy x y n i hc hocc (by omega) (by omega) (by omega) (by omega) hn hx
      have e4 := hsep cx cy x1 y1 n j hc hocc1 (by omega) (by omega) (by omega) (by omega)
        hn hx1
      exact hij (e3.symm.trans e4)
    · have hxx : x = x1 := by omega
      rw [← hxx] at hx1
      exact hij (band_unique g.width i j x hx hx1)
  intro i _ j _ hij p hp q hq
  refine ⟨?_, ?_, ?_, ?_⟩
  · intro e
    exact key i j hij p hp q hq p.1 (Or.inl rfl) (Or.inl e)
  · intro e
    exact key i j hij p hp q hq p.1 (Or.inl rfl) (Or.inr e)
  · intro e
    exact key i j hij p hp q hq p.2 (Or.inr rfl) (Or.inl e)
  · intro e
    exact key i j hij p hp q hq p.2 (Or.inr rfl) (Or.inr e)

/-! ## Tasks run one after the other -/

/-- A task that is given all its turns in one block runs to its end, or stops, before
any other task takes a step. -/
theorem runTasks_block (len : Vec2 → ℚ) (W H : ℕ) (t : ℕ) (rest : List ℕ)
    (T : List (ℕ × ℕ)) :
    ∀ (tasks : List (List (ℕ × ℕ))) (s : List PhysicsObject), tasks[t]? = some T →
      runTasks len W H tasks (List.replicate T.length t ++ rest) s =
        (forEach T (fun c => checkCollisionAt len W H c.1 c.2) s).andThen
          (runTasks len W H (tasks.set t []) rest) := by
  induction T with
  | nil =>
    intro tasks s ht
    obtain ⟨pre, post, h1, h2⟩ := getElem_split tasks t [] ht
    have hsame : tasks.set t [] = tasks := by rw [h2 [], ← h1]
    rw [hsame]
    rfl
  | cons p ps ih =>
    intro tasks s ht
    have hlt : t < tasks.length := by
      by_contra hge
      rw [List.getElem?_eq_none (not_lt.mp hge)] at ht
      exact absurd ht (by simp)
    have hrun : runTasks len W H tasks (List.replicate (p :: ps).length t ++ rest) s =
        (checkCollisionAt len W H p.1 p.2 s).andThen
          (runTasks len W H (tasks.set t ps) (List.replicate ps.length t ++ rest)) := by
      simp only [List.length_cons, List.replicate_succ, List.cons_append, runTasks, ht]
      rfl
    have hnext : runTasks len W H (tasks.set t ps) (List.replicate ps.length t ++ rest) =
        fun s1 => (forEach ps (fun c => checkCollisionAt len W H c.1 c.2) s1).andThen
          (runTasks len W H (tasks.set t []) rest) := by
      funext s1
      rw [ih (tasks.set t ps) s1 (List.getElem?_set_self hlt), List.set_set]
    rw [hrun, hnext, ← andThen_assoc]
    rfl

/-- The band tasks run one after the other, as `handleCollisionsThreaded` with an order
describes them, are the interleaving in which every task has its turns in one block. -/
theorem runTasks_blockSchedule (len : Vec2 → ℚ) (W H : ℕ) (g : CollisionGrid)
    (order : List ℕ) :
    ∀ (tasks : List (List (ℕ × ℕ))) (s : List PhysicsObject), order.Nodup →
      (∀ i ∈ order, tasks[i]? = some (bandCalls g i)) →
      runTasks len W H tasks (blockSchedule g order) s =
        forEach (order.flatMap (bandCalls g)) (fun c => checkCollisionAt len W H c.1 c.2) s := by
  induction order with
  | nil => intro tasks s _ _; rfl
  | cons i os ih =>
    intro tasks s hnd htasks
    have hi := htasks i (List.mem_cons_self _ _)
    obtain ⟨hnot, hnd1⟩ := List.nodup_cons.mp hnd
    have hb : blockSchedule g (i :: os) =
        List.replicate (bandCalls g i).length i ++ blockSchedule g os := rfl
    rw [hb, runTasks_block len W H i _ _ tasks s hi, List.flatMap_cons, forEach_append]
    have hnext : runTasks len W H (tasks.set i []) (blockSchedule g os) =
        forEach (os.flatMap (bandCalls g)) (fun c => checkCollisionAt len W H c.1 c.2) := by
      funext s1
      apply ih (tasks.set i []) s1 hnd1
      intro j hj
      have hji : i ≠ j := fun e => hnot (e ▸ hj)
      rw [List.getElem?_set_ne hji]
      exact htasks j (List.mem_cons_of_mem _ hj)
    rw [hnext]

theorem handleCollisionsThreaded_eq_concurrent (len : Vec2 → ℚ) (W H : ℕ) (g : CollisionGrid)
    (order : List ℕ) (s : List PhysicsObject) (hnd : order.Nodup)
    (hlt : ∀ i ∈ order, i < THREAD_COUNT) :
    handleCollisionsThreaded len W H g order s =
      handleCollisionsConcurrent len W H g (blockSchedule g order) s := by
  rw [handleCollisionsThreaded_calls]
  unfold handleCollisionsConcurrent
  rw [runTasks_blockSchedule len W H g order _ s hnd]
  intro i hi
  rw [List.getElem?_map, List.getElem?_range (hlt i hi)]
  rfl

/-- The block schedule of an order that names every task lets all tasks finish. -/
theorem runsAllTasks_blockSchedule (g : CollisionGrid) (order : List ℕ)
    (h : ∀ i < THREAD_COUNT, i ∈ order) : RunsAllTasks g (blockSchedule g order) := by
  intro i hi
  have hmem := h i hi
  clear h
  induction order with
  | nil => simp at hmem
  | cons j os ih =>
    have hb : blockSchedule g (j :: os) =
        List.replicate (bandCalls g j).length j ++ blockSchedule g os := rfl
    rw [hb, List.count_append]
    by_cases hji : j = i
    · subst hji
      rw [List.count_replicate_self]
      exact Nat.le_add_right _ _
    · rcases List.mem_cons.mp hmem with e | e
      · exact absurd e.symm hji
      · exact le_trans (ih e) (Nat.le_add_left _ _)

/-! ## The band tasks against the sequential sweep -/

/-- C10, amended: for every grid in which no body is touched by two bands, however the
pool interleaves the calls of `checkCollision` of the four band tasks of
`handleCollisionsThreaded` (every schedule that lets all four tasks finish), and also
when it runs the tasks one after the other in any order, the outcome is that of the
sequential sweep `handleCollisions` over the full column range: both runs end with the
same bodies (positions and velocities), or both stop at a division by zero. -/
theorem C10_threaded_eq_sequential (len : Vec2 → ℚ) (W H : ℕ) (g : CollisionGrid)
    (objects : List PhysicsObject) (hshare : BandsShareNoBody g) :
    (∀ schedule, RunsAllTasks g schedule →
      (handleCollisionsConcurrent len W H g schedule objects).result =
        (handleCollisions len W H g 1 (-1) objects).result) ∧
    (∀ order : List ℕ, order.Perm (List.range THREAD_COUNT) →
      (handleCollisionsThreaded len W H g order objects).result =
        (handleCollisions len W H g 1 (-1) objects).result) := by
  constructor
  · intro schedule hall
    rw [handleCollisionsConcurrent_result len W H g hshare schedule hall,
      handleCollisions_result_bands len W H g hshare]
  · intro order horder
    rw [handleCollisionsThreaded_calls, handleCollisions_result_bands len W H g hshare]
    have hnd : order.Nodup := horder.nodup_iff.mpr (List.nodup_range _)
    apply result_forEach_perm _ _ order (List.range THREAD_COUNT) horder hnd
    intro i hi j hj hij a ha b hb
    exact checkCollisionAt_commute len W H a b
      (hshare i (List.mem_range.mp (horder.mem_iff.mp hi)) j
        (List.mem_range.mp (horder.mem_iff.mp hj)) hij a ha b hb)

/-- C10, amended, at the four bodies of `twoBandWorld`, two of band 0 and two of band 1
with an empty column between them: no body is touched by two bands, the schedule
1, 0, 3, 1, 0, 2 lets all tasks finish, the sequential sweep runs to its end and pushes
both pairs apart, and both the interleaved tasks and the tasks run in the order
2, 0, 3, 1 give its result. -/
theorem C10_threaded_eq_sequential_witness :
    BandsShareNoBody (rebuildGrid smallGrid twoBandWorld).state ∧
    RunsAllTasks (rebuildGrid smallGrid twoBandWorld).state [1, 0, 3, 1, 0, 2] ∧
    handleCollisions sqrtLength 40 40 (rebuildGrid smallGrid twoBandWorld).state 1 (-1)
        twoBandWorld =
      done [PhysicsObject.new ⟨8, 12⟩ 4 ⟨0, 0⟩, PhysicsObject.new ⟨63 / 4, 12⟩ 4 ⟨0, 0⟩,
        PhysicsObject.new ⟨26, 21 / 2⟩ 4 ⟨1, 0⟩, PhysicsObject.new ⟨26, 37 / 2⟩ 4 ⟨0, 0⟩] ∧
    (handleCollisionsConcurrent sqrtLength 40 40 (rebuildGrid smallGrid twoBandWorld).state
        [1, 0, 3, 1, 0, 2] twoBandWorld).result =
      (handleCollisions sqrtLength 40 40 (rebuildGrid smallGrid twoBandWorld).state 1 (-1)
        twoBandWorld).result ∧
    (handleCollisionsThreaded sqrtLength 40 40 (rebuildGrid smallGrid twoBandWorld).state
        [2, 0, 3, 1] twoBandWorld).result =
      (handleCollisions sqrtLength 40 40 (rebuildGrid smallGrid twoBandWorld).state 1 (-1)
        twoBandWorld).result :=
  ⟨by decide!, by decide!, by decide!,
    (C10_threaded_eq_sequential sqrtLength 40 40 (rebuildGrid smallGrid twoBandWorld).state
      twoBandWorld (by decide!)).1 [1, 0, 3, 1, 0, 2] (by decide!),
    (C10_threaded_eq_sequential sqrtLength 40 40 (rebuildGrid smallGrid twoBandWorld).state
      twoBandWorld (by decide!)).2 [2, 0, 3, 1] (by decide!)⟩

/-- C17 at a grid of 11 columns, whose bands are the columns 1-2, 3-5, 6-8 and 9:
bands 0 and 1 share no column, and column 5 lies in exactly one band. -/
theorem C17_bands_partition_witness :
    (List.range THREAD_COUNT).map (bandColumns 11) = [[1, 2], [3, 4, 5], [6, 7, 8], [9]] ∧
    (∀ x ∈ bandColumns 11 0, x ∉ bandColumns 11 1) ∧
    ∃! i, i < THREAD_COUNT ∧ (5 : ℤ) ∈ bandColumns 11 i :=
  ⟨by decide!, (C17_bands_partition 11).2.2.2.2.1 0 1 (by decide),
    (C17_bands_partition 11).2.2.2.2.2 5 (by decide) (by decide)⟩

end Atomos
